import Mathlib

/-!
Shallow embedding of the file-ingestion tool of this repository
(python/lsst/pipe/tasks/ingest.py): the registry builder (RegisterConfig,
RegisterTask, RegistryContext), the file transport (IngestTask.ingest) and
the batch driver (IngestTask.runFile, IngestTask.run).

External collaborators (the FITS metadata reader behind ParseTask.getInfo,
the butler behind ParseTask.getDestination, and the filesystem glob) are
passed in as function parameters, mirroring the result contracts the code
relies on.  Python scalars and SQLite storage values are both modelled by
`Value`; Python floats are modelled by rationals.
-/

set_option maxHeartbeats 1000000

/-- Scalar values: Python str/int/float on the extraction side, and SQLite
TEXT/INTEGER/REAL storage values on the registry side. -/
inductive Value
  | text (s : String)
  | int (i : Int)
  | real (q : Rat)
deriving DecidableEq, Repr

/-- Column types admitted by RegisterConfig.columns: the itemCheck allows
exactly "text", "int" and "double". -/
inductive ColType
  | text
  | int
  | double
deriving DecidableEq, Repr

/-- Errors raised by the embedded code: Python KeyError / ValueError /
RuntimeError / AssertionError-like failures, SQLite operational and
integrity errors, pex.config validation errors, and errors raised by the
external metadata / butler boundaries. -/
inductive Err
  | keyError (k : String)
  | valueError (s : String)
  | sqlError (s : String)
  | integrityError
  | runtimeError (s : String)
  | configError (s : String)
  | externalError (s : String)
deriving DecidableEq, Repr

/-- A property mapping extracted from one file (or one HDU): Python dict
from column name to scalar value, modelled as an association list. -/
abbrev Info := List (String × Value)

/-- One stored table row: column name to stored value. -/
abbrev Row := List (String × Value)

/-- Whitespace recognition for stripping, as Python's strip does on the
usual ASCII whitespace. -/
def isSpaceChar (c : Char) : Bool := c == ' ' || c == '\t' || c == '\n' || c == '\r'

/-- Python str.strip on a character list. -/
def trimChars (l : List Char) : List Char :=
  ((l.dropWhile isSpaceChar).reverse.dropWhile isSpaceChar).reverse

/-- Value of a decimal digit character. -/
def digitVal? (c : Char) : Option Nat :=
  if '0' <= c && c <= '9' then some (c.toNat - '0'.toNat) else none

/-- Accumulating decimal parse; every character must be a digit. -/
def digitsToNatAux (acc : Nat) : List Char -> Option Nat
  | [] => some acc
  | c :: cs =>
    match digitVal? c with
    | some d => digitsToNatAux (acc * 10 + d) cs
    | none => none

/-- A nonempty all-digit run parsed as a natural number. -/
def parseDigits (l : List Char) : Option Nat :=
  if l.isEmpty then none else digitsToNatAux 0 l

/-- Split of a character list at a separator character. -/
def splitChar (sep : Char) : List Char -> List (List Char)
  | [] => [[]]
  | c :: cs =>
    let r := splitChar sep cs
    if c == sep then [] :: r
    else
      match r with
      | [] => [[c]]
      | h :: t => (c :: h) :: t

/-- Rejoining of path components with slashes. -/
def joinSlash : List (List Char) -> List Char
  | [] => []
  | [x] => x
  | x :: xs => x ++ '/' :: joinSlash xs

/-- Model of Python int(s) on a string: surrounding whitespace and an
optional sign are accepted, otherwise the digits must form the whole
string. -/
def pyParseInt (s : String) : Option Int :=
  match trimChars s.data with
  | '+' :: rest => (parseDigits rest).map (fun n => (n : Int))
  | '-' :: rest => (parseDigits rest).map (fun n => -(n : Int))
  | t => (parseDigits t).map (fun n => (n : Int))

/-- Model of Python float(s) on a string (and of SQLite's text-to-numeric
conversion): optional sign, then digits on both or one side of an optional
decimal point.  Exponent forms are not modelled; no claim exercises
them. -/
def pyParseFloat (s : String) : Option Rat :=
  let t := trimChars s.data
  let su : Int × List Char :=
    match t with
    | '+' :: rest => (1, rest)
    | '-' :: rest => (-1, rest)
    | _ => (1, t)
  match splitChar '.' su.2 with
  | [a] => (parseDigits a).map (fun n => ((su.1 * (n : Int) : Int) : Rat))
  | [a, b] =>
    if a.isEmpty then
      (parseDigits b).map (fun nb =>
        ((su.1 : Int) : Rat) * ((nb : Rat) / ((10 : Rat) ^ b.length)))
    else if b.isEmpty then
      (parseDigits a).map (fun na => ((su.1 * (na : Int) : Int) : Rat))
    else
      match parseDigits a, parseDigits b with
      | some na, some nb =>
        some (((su.1 : Int) : Rat) * ((na : Rat) + (nb : Rat) / ((10 : Rat) ^ b.length)))
      | _, _ => none
  | _ => none

/-- Truncation toward zero, as in Python int(float). -/
def ratTrunc (q : Rat) : Int := Int.tdiv q.num (q.den : Int)

/-- Decimal rendering of a float.  Only the integral case (Python
str(5.0) = "5.0", likewise SQLite) is relied on by any claim; other
denominators fall back to a fraction rendering. -/
def renderRat (q : Rat) : String :=
  if q.den == 1 then toString q.num ++ ".0"
  else toString q.num ++ "/" ++ toString q.den

/-- Model of Python str(value), as applied by typemap "text". -/
def pyStr : Value → String
  | .text s => s
  | .int i => toString i
  | .real q => renderRat q

/-- Application of RegisterTask.typemap: the configured column type's
Python constructor applied to a property value.  int() and float() on a
malformed string raise ValueError. -/
def coerceVal : ColType → Value → Except Err Value
  | .text, v => .ok (.text (pyStr v))
  | .int, .int i => .ok (.int i)
  | .int, .real q => .ok (.int (ratTrunc q))
  | .int, .text s =>
    match pyParseInt s with
    | some i => .ok (.int i)
    | none => .error (.valueError s)
  | .double, .int i => .ok (.real (i : Rat))
  | .double, .real q => .ok (.real q)
  | .double, .text s =>
    match pyParseFloat s with
    | some q => .ok (.real q)
    | none => .error (.valueError s)

/-- Numeric view of a stored or bound value, used by SQLite comparison
affinity (a text operand is converted when it is a well-formed numeric
literal). -/
def toNum : Value → Option Rat
  | .int i => some (i : Rat)
  | .real q => some q
  | .text s => pyParseFloat s

/-- SQLite equality of a stored column value against a bound parameter
under the column's type affinity: numeric-affinity columns convert a
numeric-looking text operand before comparing; text-affinity columns
compare text renderings; operands of different storage classes that cannot
be converted are unequal. -/
def affEq (ct : ColType) (a b : Value) : Bool :=
  match ct with
  | .text => pyStr a == pyStr b
  | _ =>
    match toNum a, toNum b with
    | some x, some y => x == y
    | _, _ =>
      match a, b with
      | .text s, .text t => s == t
      | _, _ => false

/-- Python dict subscription info[k]: KeyError when the key is absent. -/
def lookupE (m : List (String × Value)) (k : String) : Except Err Value :=
  match m.lookup k with
  | some v => .ok v
  | none => .error (.keyError k)

/-- Effectful map over a list, stopping at the first error (the order in
which a Python list comprehension evaluates its elements). -/
def mapME {α β : Type} (f : α → Except Err β) : List α → Except Err (List β)
  | [] => .ok []
  | x :: xs =>
    match f x with
    | .error e => .error e
    | .ok b =>
      match mapME f xs with
      | .error e => .error e
      | .ok bs => .ok (b :: bs)

/-- Configuration for the RegisterTask (RegisterConfig), with the source's
defaults.  columns is an ordered name-to-type mapping (Python dict). -/
structure RegisterConfig where
  table : String := "raw"
  columns : List (String × ColType) :=
    [("object", ColType.text), ("visit", ColType.int), ("ccd", ColType.int),
     ("filter", ColType.text), ("date", ColType.text), ("taiObs", ColType.text),
     ("expTime", ColType.double)]
  unique : List String := ["visit", "ccd"]
  visit : List String := ["visit", "object", "date", "filter"]
  ignore : Bool := false
  permissions : Nat := 0o664
deriving DecidableEq, Repr

/-- Raw (pre-validation) RegisterConfig, with column types as plain
strings, as they stand before pex.config's itemCheck has accepted them. -/
structure RawRegisterConfig where
  table : String := "raw"
  columns : List (String × String)
  unique : List String := ["visit", "ccd"]
  visit : List String := ["visit", "object", "date", "filter"]
  ignore : Bool := false
  permissions : Nat := 0o664
deriving DecidableEq, Repr

/-- The itemCheck on RegisterConfig.columns: a type string must be one of
"text", "int", "double". -/
def ColType.ofString : String → Option ColType
  | "text" => some ColType.text
  | "int" => some ColType.int
  | "double" => some ColType.double
  | _ => none

/-- Startup validation of the registry configuration, as performed by
pex.config when the columns DictField is populated: every column type must
pass the itemCheck.  Note that no check relates unique/visit column names
to the column mapping at this stage. -/
def validateConfig (raw : RawRegisterConfig) : Except Err RegisterConfig :=
  match mapME (fun ct =>
    match ColType.ofString ct.2 with
    | some t => Except.ok (ct.1, t)
    | none => Except.error (Err.configError ct.2)) raw.columns with
  | .error e => .error e
  | .ok cols =>
    .ok { table := raw.table, columns := cols, unique := raw.unique,
          visit := raw.visit, ignore := raw.ignore, permissions := raw.permissions }

/-- Contents of the working registry database: the file table (typically
"raw") and the visit table (typically "raw_visit"). -/
structure Registry where
  fileTable : List Row
  visitTable : List Row
deriving DecidableEq, Repr

/-- Coerced values of the unique columns of a record, in unique-column
order, exactly as RegisterTask.check builds its parameter list:
typemap[columns[col]](info[col]). -/
def coercedUniqueValues (cfg : RegisterConfig) (info : Info) : Except Err (List Value) :=
  mapME (fun col =>
    match cfg.columns.lookup col with
    | none => .error (.keyError col)
    | some ct =>
      match lookupE info col with
      | .error e => .error e
      | .ok v => coerceVal ct v) cfg.unique

/-- Raw, uncoerced values of the unique columns of a record, exactly as
RegisterTask.addRow appends them for its NOT EXISTS guard:
values += [info[col] for col in unique]. -/
def rawUniqueValues (cfg : RegisterConfig) (info : Info) : Except Err (List Value) :=
  mapME (fun col => lookupE info col) cfg.unique

/-- Coerced values of every configured column of a record, in column
order, exactly as RegisterTask.addRow builds its INSERT parameters:
values = [typemap[tt](info[col]) for col, tt in columns.items()]. -/
def coercedRowValues (cfg : RegisterConfig) (info : Info) : Except Err (List Value) :=
  mapME (fun ct =>
    match lookupE info ct.1 with
    | .error e => .error e
    | .ok v => coerceVal ct.2 v) cfg.columns

/-- The row an INSERT of the given parameter list produces. -/
def mkRow (cfg : RegisterConfig) (vals : List Value) : Row :=
  (cfg.columns.map Prod.fst).zip vals

/-- Evaluation of a WHERE clause "u1 = ? AND u2 = ? AND ..." over the
unique columns against one stored row, with the given bound parameters
(affinity applies). -/
def rowMatchesUnique (cfg : RegisterConfig) (row : Row) (vals : List Value) : Bool :=
  (cfg.unique.zip vals).all (fun cv =>
    match cfg.columns.lookup cv.1, row.lookup cv.1 with
    | some ct, some stored => affEq ct stored cv.2
    | _, _ => false)

/-- The UNIQUE constraint over the configured unique columns: an insert
conflicts when the table already holds a row agreeing with the new row on
every unique column (stored values, same storage class after coercion). -/
def uniqueConflict (cfg : RegisterConfig) (tbl : List Row) (row : Row) : Bool :=
  !cfg.unique.isEmpty &&
    tbl.any (fun r => cfg.unique.all (fun c =>
      match r.lookup c, row.lookup c with
      | some a, some b => a == b
      | _, _ => false))

/-- RegisterTask.check: presence test for a row.  Returns false
unconditionally when ignore is configured or no unique columns exist;
otherwise counts rows matching the coerced unique values. -/
def RegisterTask.check (cfg : RegisterConfig) (tbl : List Row) (info : Info) :
    Except Err Bool :=
  if cfg.ignore || cfg.unique.isEmpty then .ok false
  else
    match coercedUniqueValues cfg info with
    | .error e => .error e
    | .ok vals => .ok (tbl.any (fun row => rowMatchesUnique cfg row vals))

/-- Events recorded by the embedding at the points where the code performs
an externally visible action: reads (metadata extraction, the registry
presence check), filesystem and database mutations, the dry-run "would
execute" reports, and log warnings / skips. -/
inductive Event
  | extractMeta (f : String)
  | checkRegistry (f : String)
  | fsMkdir (d : String)
  | fsUnlink (p : String)
  | fsCopy (src dst : String)
  | fsMove (src dst : String)
  | fsLink (src dst : String)
  | dbInsertRow (t : String)
  | dbInsertVisits (t : String)
  | wouldTransport (mode src dst : String)
  | wouldInsert (t : String)
  | wouldVisits (t : String)
  | warned (f : String)
deriving DecidableEq, Repr

/-- Whether an event is a filesystem or database mutation. -/
def Event.isMutation : Event → Bool
  | .fsMkdir _ => true
  | .fsUnlink _ => true
  | .fsCopy _ _ => true
  | .fsMove _ _ => true
  | .fsLink _ _ => true
  | .dbInsertRow _ => true
  | .dbInsertVisits _ => true
  | _ => false

/-- Whether an event is the already-ingested registry presence check. -/
def Event.isCheck : Event → Bool
  | .checkRegistry _ => true
  | _ => false

/-- RegisterTask.addRow: append one row to the file table.  The INSERT
parameters are the coerced column values; when ignore is configured the
statement carries a NOT EXISTS guard whose parameters are the raw,
uncoerced unique-column values.  In dry-run mode the statement is built
(so coercion errors still raise) and reported instead of executed.  A
non-guarded insert that collides on the unique columns raises an
integrity error. -/
def RegisterTask.addRow (cfg : RegisterConfig) (regOpt : Option Registry)
    (dryrun : Bool) (info : Info) : Except Err (Option Registry × List Event) :=
  match coercedRowValues cfg info with
  | .error e => .error e
  | .ok vals =>
    match (if cfg.ignore then rawUniqueValues cfg info else .ok []) with
    | .error e => .error e
    | .ok guardVals =>
      if dryrun then .ok (regOpt, [Event.wouldInsert cfg.table])
      else
        match regOpt with
        | none => .error (.sqlError "no connection")
        | some reg =>
          if cfg.ignore && cfg.unique.isEmpty then .error (.sqlError "malformed WHERE")
          else
            let row := mkRow cfg vals
            if cfg.ignore && reg.fileTable.any (fun r => rowMatchesUnique cfg r guardVals) then
              .ok (some reg, [])
            else if uniqueConflict cfg reg.fileTable row then
              .error .integrityError
            else
              .ok (some { reg with fileTable := reg.fileTable ++ [row] },
                   [Event.dbInsertRow cfg.table])

/-- SELECT DISTINCT over a list of projected rows: first occurrences are
kept, in order (rows already seen are dropped). -/
def selectDistinctAux (seen : List Row) : List Row -> List Row
  | [] => []
  | r :: rs =>
    if seen.contains r then selectDistinctAux seen rs
    else r :: selectDistinctAux (r :: seen) rs

/-- SELECT DISTINCT on the projected file table. -/
def selectDistinct (l : List Row) : List Row := selectDistinctAux [] l

/-- Projection of one file-table row onto the configured visit columns.
Rows of a table created from the configuration carry every configured
column, so the default is never exercised on well-formed tables. -/
def projectRow (cols : List String) (row : Row) : Row :=
  cols.map (fun c => (c, (row.lookup c).getD (Value.text "")))

/-- The columns of the visit table that carry its UNIQUE constraint:
set(visit).intersection(set(unique)), kept in visit-column order. -/
def visitInterCols (cfg : RegisterConfig) : List String :=
  cfg.visit.filter (fun c => cfg.unique.contains c)

/-- Agreement of two rows on each of the given columns (stored values). -/
def rowsMatchOn (cols : List String) (r1 r2 : Row) : Bool :=
  cols.all (fun c =>
    match r1.lookup c, r2.lookup c with
    | some a, some b => a == b
    | _, _ => false)

/-- Sequential insertion of the candidate visit rows under the visit
table's UNIQUE constraint: a conflicting candidate aborts the whole
statement (SQLite's default ABORT resolution undoes the statement). -/
def insertVisitRows (inter : List String) (acc : List Row) :
    List Row → Except Err (List Row)
  | [] => .ok acc
  | t :: ts =>
    if acc.any (fun r => rowsMatchOn inter r t) then .error .integrityError
    else insertVisitRows inter (acc ++ [t]) ts

/-- RegisterTask.addVisits: INSERT INTO table_visit SELECT DISTINCT
visit-columns FROM table AS vv1 WHERE NOT EXISTS (SELECT vv2.visit FROM
table_visit AS vv2 WHERE vv1.visit = vv2.visit).  The SELECT is
materialized before any insertion (SQLite does so when the target table is
read by the SELECT), then the rows are inserted under the visit table's
UNIQUE constraint.  Unknown columns are SQL errors; the statement
hard-codes the column name "visit". -/
def RegisterTask.addVisits (cfg : RegisterConfig) (regOpt : Option Registry)
    (dryrun : Bool) : Except Err (Option Registry × List Event) :=
  if dryrun then .ok (regOpt, [Event.wouldVisits cfg.table])
  else
    match regOpt with
    | none => .error (.sqlError "no connection")
    | some reg =>
      let colNames := cfg.columns.map Prod.fst
      if cfg.visit.any (fun c => !colNames.contains c) then
        .error (.sqlError "unknown column")
      else if !colNames.contains "visit" || !cfg.visit.contains "visit" then
        .error (.sqlError "no visit column")
      else
        let tuples := selectDistinct (reg.fileTable.map (projectRow cfg.visit))
        let cands := tuples.filter (fun t =>
          !reg.visitTable.any (fun r2 => r2.lookup "visit" == t.lookup "visit"))
        match insertVisitRows (visitInterCols cfg) reg.visitTable cands with
        | .error e => .error e
        | .ok vt => .ok (some { reg with visitTable := vt },
                         [Event.dbInsertVisits cfg.table])

/-- Construction of the two registry tables per the configured schema, as
executed by RegisterTask.createTable when (re)creating: the CREATE of the
file table fails on a unique column absent from the schema (SQL error);
building the visit-table statement subscripts columns[col] for each visit
column and so raises KeyError on an unknown one. -/
def RegisterTask.buildTables (cfg : RegisterConfig) : Except Err Registry :=
  let colNames := cfg.columns.map Prod.fst
  if cfg.unique.any (fun c => !colNames.contains c) then
    .error (.sqlError "unknown unique column")
  else if cfg.visit.any (fun c => !colNames.contains c) then
    .error (.keyError "visit column")
  else .ok { fileTable := [], visitTable := [] }

/-- RegisterTask.createTable: idempotent table creation.  When the
database already holds the table (the copied live registry) and recreation
is not forced, nothing happens; otherwise both tables are dropped and
rebuilt from the configuration. -/
def RegisterTask.createTable (cfg : RegisterConfig) (db : Option Registry)
    (force : Bool) : Except Err Registry :=
  match db with
  | some reg => if !force then .ok reg else RegisterTask.buildTables cfg
  | none => RegisterTask.buildTables cfg

/-- Filesystem-level I/O actions performed while a RegistryContext is being
constructed. -/
inductive RegIOEvent
  | createTempFile
  | copyRegistry
  | connectDb
  | chmodFile
deriving DecidableEq, Repr

/-- RegisterTask.openRegistry: in dry-run mode a no-op context (fakeContext)
is returned at once and no I/O happens.  Otherwise a RegistryContext is
constructed: the temporary working file is created, an existing live
registry is copied into it, the database connection is opened on it, and
createTable runs (whose errors therefore surface only after those I/O
steps). -/
def RegisterTask.openRegistry (cfg : RegisterConfig) (dryrun : Bool)
    (live : Option Registry) (force : Bool) :
    List RegIOEvent × Except Err (Option Registry) :=
  if dryrun then ([], .ok none)
  else
    let ev := [RegIOEvent.createTempFile] ++
      (if live.isSome then [RegIOEvent.copyRegistry] else []) ++
      [RegIOEvent.connectDb]
    match RegisterTask.createTable cfg live force with
    | .error e => (ev, .error e)
    | .ok reg => (ev ++ [RegIOEvent.chmodFile], .ok (some reg))

/-- A filesystem entry: a regular file with contents, or a symbolic link
with a target. -/
inductive FEntry
  | file (content : String)
  | symlink (target : String)
deriving DecidableEq, Repr

/-- The filesystem seen by the transport step: named entries, the set of
existing directories, and the free bytes available on the destination
volume (os.statvfs). -/
structure FS where
  files : List (String × FEntry)
  dirs : List String
  avail : Nat
deriving DecidableEq, Repr

/-- os.path.lexists: the path names an entry (a dangling symlink counts). -/
def FS.lexists (fs : FS) (p : String) : Bool := (fs.files.lookup p).isSome

/-- os.path.isdir. -/
def FS.isdir (fs : FS) (p : String) : Bool := fs.dirs.contains p

/-- Creation or replacement of a filesystem entry. -/
def FS.setFile (fs : FS) (p : String) (e : FEntry) : FS :=
  { fs with files := (p, e) :: fs.files.filter (fun q => q.1 != p) }

/-- os.unlink. -/
def FS.unlink (fs : FS) (p : String) : FS :=
  { fs with files := fs.files.filter (fun q => q.1 != p) }

/-- Byte size of an entry (os.stat().st_size), none when the path is
missing. -/
def FS.sizeOf? (fs : FS) (p : String) : Option Nat :=
  match fs.files.lookup p with
  | some (.file c) => some c.length
  | some (.symlink t) => some t.length
  | none => none

/-- os.path.dirname: everything before the final slash. -/
def dirname (p : String) : String :=
  let parts := splitChar '/' p.data
  if parts.length <= 1 then "" else String.mk (joinSlash parts.dropLast)

/-- os.path.basename: the final path component. -/
def basename (p : String) : String := String.mk ((splitChar '/' p.data).getLastD p.data)

/-- os.path.abspath, modelled as rooting a relative path. -/
def abspath (p : String) : String :=
  match p.data with
  | '/' :: _ => p
  | _ => String.mk ('/' :: p.data)

/-- assertCanCopy: stat the source and compare its size against the free
bytes of the destination volume; raise RuntimeError when space is
insufficient. -/
def assertCanCopy (fs : FS) (src : String) : Except Err Unit :=
  match fs.sizeOf? src with
  | none => .error (.runtimeError "stat")
  | some sz =>
    if fs.avail < sz then .error (.runtimeError "Insufficient space") else .ok ()

/-- The transport mode (--mode command-line choice). -/
inductive Mode
  | move
  | copy
  | link
  | skip
deriving DecidableEq, Repr

/-- String form of a mode, as interpolated into log messages. -/
def Mode.str : Mode → String
  | .move => "move"
  | .copy => "copy"
  | .link => "link"
  | .skip => "skip"

/-- Wildcard match of a name against a pattern, as fnmatch does for the
bad-file list: ? matches one character and * any run (character classes
are not modelled; no claim uses them). -/
def fnmatchL : List Char → List Char → Bool
  | [], [] => true
  | [], c :: ps => c == '*' && fnmatchL [] ps
  | _ :: _, [] => false
  | c :: cs, p :: ps =>
    if p == '*' then fnmatchL (c :: cs) ps || fnmatchL cs (p :: ps)
    else if p == '?' || p == c then fnmatchL cs ps
    else false
termination_by s p => (s.length, p.length)

/-- fnmatch on strings. -/
def fnmatch (name pat : String) : Bool := fnmatchL name.toList pat.toList

/-- The mode dispatch inside IngestTask.ingest's try block, after the
destination has been cleared: copy and move first run the space precheck,
link creates a symlink to the absolute source path. -/
def IngestTask.ingestMode (mode : Mode) (fs : FS) (ev : List Event)
    (infile outfile : String) : FS × List Event × Except Err Unit :=
  match mode with
  | .copy =>
    match assertCanCopy fs infile with
    | .error e => (fs, ev, .error e)
    | .ok _ =>
      match fs.files.lookup infile with
      | some entry => (fs.setFile outfile entry, ev ++ [Event.fsCopy infile outfile], .ok ())
      | none => (fs, ev, .error (.runtimeError "missing source"))
  | .link =>
    (fs.setFile outfile (.symlink (abspath infile)),
     ev ++ [Event.fsLink infile outfile], .ok ())
  | .move =>
    match assertCanCopy fs infile with
    | .error e => (fs, ev, .error e)
    | .ok _ =>
      match fs.files.lookup infile with
      | some entry =>
        ((fs.setFile outfile entry).unlink infile,
         ev ++ [Event.fsMove infile outfile], .ok ())
      | none => (fs, ev, .error (.runtimeError "missing source"))
  | .skip => (fs, ev, .error (.runtimeError "unreachable"))

/-- The try block of IngestTask.ingest: create the destination directory if
missing, then either clear an existing destination (clobber) or raise
RuntimeError, then dispatch on the mode.  Mutations made before a raise
persist. -/
def IngestTask.ingestTry (clobber : Bool) (mode : Mode) (fs : FS)
    (infile outfile : String) : FS × List Event × Except Err Unit :=
  let outdir := dirname outfile
  let st1 : FS × List Event :=
    if !fs.isdir outdir then
      ({ fs with dirs := outdir :: fs.dirs }, [Event.fsMkdir outdir])
    else (fs, [])
  let fs1 := st1.1
  let ev1 := st1.2
  if fs1.lexists outfile then
    if clobber then
      IngestTask.ingestMode mode (fs1.unlink outfile)
        (ev1 ++ [Event.fsUnlink outfile]) infile outfile
    else (fs1, ev1, .error (.runtimeError "File exists"))
  else IngestTask.ingestMode mode fs1 ev1 infile outfile

/-- IngestTask.ingest: skip mode succeeds at once; dry-run only reports;
otherwise the try body runs, a failure is logged as a warning and either
re-raised (strict) or absorbed into a False result (allowError). -/
def IngestTask.ingest (clobber allowError : Bool) (mode : Mode) (dryrun : Bool)
    (fs : FS) (infile outfile : String) : FS × List Event × Except Err Bool :=
  if mode = Mode.skip then (fs, [], .ok true)
  else if dryrun then (fs, [Event.wouldTransport mode.str infile outfile], .ok true)
  else
    match IngestTask.ingestTry clobber mode fs infile outfile with
    | (fs', ev, .ok _) => (fs', ev, .ok true)
    | (fs', ev, .error e) =>
      if allowError then (fs', ev ++ [Event.warned infile], .ok false)
      else (fs', ev ++ [Event.warned infile], .error e)

/-- IngestTask.isBadFile: the basename is matched against every bad-file
pattern. -/
def IngestTask.isBadFile (filename : String) (badFileList : List String) : Bool :=
  badFileList.any (fun pat => fnmatch (basename filename) pat)

/-- One bad data identifier matched conjunctively against the extracted
properties; subscription of a missing key raises KeyError, and the
conjunction short-circuits at the first mismatch as the generator does. -/
def badIdMatches (info : Info) : List (String × Value) → Except Err Bool
  | [] => .ok true
  | (k, v) :: rest =>
    match info.lookup k with
    | none => .error (.keyError k)
    | some w => if w == v then badIdMatches info rest else .ok false

/-- IngestTask.isBadId over the configured bad-identifier list. -/
def IngestTask.isBadId (info : Info) :
    List (List (String × Value)) → Except Err Bool
  | [] => .ok false
  | badId :: rest =>
    match badIdMatches info badId with
    | .error e => .error e
    | .ok true => .ok true
    | .ok false => IngestTask.isBadId info rest

/-- IngestTask.expandFiles: each name is glob-expanded; a pattern matching
nothing is warned about and dropped from the result (the docstring and the
inline comment instead promise POSIX fallback, i.e. keeping the pattern
unchanged). -/
def IngestTask.expandFiles (globFn : String → List String) :
    List String → List String
  | [] => []
  | pat :: rest =>
    let fls := globFn pat
    if fls.isEmpty then IngestTask.expandFiles globFn rest
    else fls ++ IngestTask.expandFiles globFn rest

/-- Configuration for the IngestTask (allowError disables strict mode,
clobber allows overwriting transport destinations). -/
structure IngestConfig where
  register : RegisterConfig := {}
  allowError : Bool := false
  clobber : Bool := false
deriving DecidableEq, Repr

/-- Parsed command-line arguments relevant to the driver. -/
structure Args where
  files : List String := []
  badFile : List String := []
  badId : List (List (String × Value)) := []
  ignoreIngested : Bool := false
  mode : Mode := Mode.link
  dryrun : Bool := false
  create : Bool := false
deriving DecidableEq, Repr

/-- Destination resolution and transport for one file, after the bad-id
and registry checks have passed (the tail of IngestTask.runFile). -/
def IngestTask.runFileTransport (cfg : IngestConfig)
    (destOf : Info → Except Err String) (args : Args) (fs : FS)
    (infile : String) (fileInfo : Info) (hduInfoList : List Info)
    (ev : List Event) : FS × List Event × Except Err (Option (List Info)) :=
  match destOf fileInfo with
  | .error e => (fs, ev, .error e)
  | .ok outfile =>
    match IngestTask.ingest cfg.clobber cfg.allowError args.mode args.dryrun
        fs infile outfile with
    | (fs', ev2, .error e) => (fs', ev ++ ev2, .error e)
    | (fs', ev2, .ok true) => (fs', ev ++ ev2, .ok (some hduInfoList))
    | (fs', ev2, .ok false) => (fs', ev ++ ev2, .ok none)

/-- The registry presence check of IngestTask.runFile: only performed when
a registry handle exists (in dry-run it is None); a hit is skipped
silently under --ignore-ingested and otherwise warned about and
processed anyway. -/
def IngestTask.runFileChecked (cfg : IngestConfig)
    (destOf : Info → Except Err String) (args : Args) (fs : FS)
    (regOpt : Option Registry) (infile : String) (fileInfo : Info)
    (hduInfoList : List Info) : FS × List Event × Except Err (Option (List Info)) :=
  let ev0 : List Event := [Event.extractMeta infile]
  match regOpt with
  | some reg =>
    let ev1 := ev0 ++ [Event.checkRegistry infile]
    match RegisterTask.check cfg.register reg.fileTable fileInfo with
    | .error e => (fs, ev1, .error e)
    | .ok true =>
      if args.ignoreIngested then (fs, ev1, .ok none)
      else IngestTask.runFileTransport cfg destOf args fs infile fileInfo
        hduInfoList (ev1 ++ [Event.warned infile])
    | .ok false =>
      IngestTask.runFileTransport cfg destOf args fs infile fileInfo
        hduInfoList ev1
  | none =>
    IngestTask.runFileTransport cfg destOf args fs infile fileInfo hduInfoList ev0

/-- IngestTask.runFile: examine and ingest a single file.  Extraction
failures are re-raised in strict mode and otherwise warned about and
skipped; bad files and bad ids are skipped; a check hit with
--ignore-ingested is skipped; transport failure yields no row. -/
def IngestTask.runFile (cfg : IngestConfig)
    (parseInfo : String → Except Err (Info × List Info))
    (destOf : Info → Except Err String) (args : Args) (fs : FS)
    (regOpt : Option Registry) (infile : String) :
    FS × List Event × Except Err (Option (List Info)) :=
  if IngestTask.isBadFile infile args.badFile then
    (fs, [Event.warned infile], .ok none)
  else
    match parseInfo infile with
    | .error e =>
      if !cfg.allowError then (fs, [Event.extractMeta infile], .error e)
      else (fs, [Event.extractMeta infile, Event.warned infile], .ok none)
    | .ok (fileInfo, hduInfoList) =>
      match IngestTask.isBadId fileInfo args.badId with
      | .error e => (fs, [Event.extractMeta infile], .error e)
      | .ok true => (fs, [Event.extractMeta infile, Event.warned infile], .ok none)
      | .ok false =>
        IngestTask.runFileChecked cfg destOf args fs regOpt infile fileInfo
          hduInfoList

/-- The row insertions for the HDU list of one file (the inner loop of
IngestTask.run); addRow errors propagate and abort the run. -/
def IngestTask.addRows (cfg : RegisterConfig) (regOpt : Option Registry)
    (dryrun create : Bool) : List Info → Except Err (Option Registry × List Event)
  | [] => .ok (regOpt, [])
  | info :: rest =>
    match RegisterTask.addRow cfg regOpt dryrun info with
    | .error e => .error e
    | .ok (regOpt', ev) =>
      match IngestTask.addRows cfg regOpt' dryrun create rest with
      | .error e => .error e
      | .ok (r2, ev2) => .ok (r2, ev ++ ev2)

/-- One iteration of IngestTask.run's file loop: runFile is guarded by a
blanket per-file except clause that warns and continues, while addRow runs
outside that guard so its errors abort the run. -/
def IngestTask.loopBody (cfg : IngestConfig)
    (parseInfo : String → Except Err (Info × List Info))
    (destOf : Info → Except Err String) (args : Args)
    (st : FS × Option Registry × List Event) (infile : String) :
    Except Err (FS × Option Registry × List Event) :=
  match IngestTask.runFile cfg parseInfo destOf args st.1 st.2.1 infile with
  | (fs', ev, .error _) =>
    .ok (fs', st.2.1, st.2.2 ++ ev ++ [Event.warned infile])
  | (fs', ev, .ok none) => .ok (fs', st.2.1, st.2.2 ++ ev)
  | (fs', ev, .ok (some infos)) =>
    match IngestTask.addRows cfg.register st.2.1 args.dryrun args.create infos with
    | .error e => .error e
    | .ok (regOpt', ev2) => .ok (fs', regOpt', st.2.2 ++ ev ++ ev2)

/-- The file loop of IngestTask.run. -/
def IngestTask.runLoop (cfg : IngestConfig)
    (parseInfo : String → Except Err (Info × List Info))
    (destOf : Info → Except Err String) (args : Args) :
    List String → (FS × Option Registry × List Event) →
    Except Err (FS × Option Registry × List Event)
  | [], st => .ok st
  | f :: rest, st =>
    match IngestTask.loopBody cfg parseInfo destOf args st f with
    | .error e => .error e
    | .ok st' => IngestTask.runLoop cfg parseInfo destOf args rest st'

/-- IngestTask.run: expand the inputs, open the registry (a no-op handle
under dry-run), process every file inside the registry scope, and refresh
the visit table once at the end of the batch. -/
def IngestTask.run (cfg : IngestConfig)
    (parseInfo : String → Except Err (Info × List Info))
    (destOf : Info → Except Err String) (globFn : String → List String)
    (args : Args) (fs0 : FS) (live : Option Registry) :
    List RegIOEvent × Except Err (FS × Option Registry × List Event) :=
  let filenameList := IngestTask.expandFiles globFn args.files
  let opened := RegisterTask.openRegistry cfg.register args.dryrun live args.create
  match opened.2 with
  | .error e => (opened.1, .error e)
  | .ok regOpt =>
    match IngestTask.runLoop cfg parseInfo destOf args filenameList
        (fs0, regOpt, []) with
    | .error e => (opened.1, .error e)
    | .ok st =>
      match RegisterTask.addVisits cfg.register st.2.1 args.dryrun with
      | .error e => (opened.1, .error e)
      | .ok (regOpt'', ev) => (opened.1, .ok (st.1, regOpt'', st.2.2 ++ ev))

/-- The directory holding the live registry, as seen at the granularity of
whole files: path to byte contents, plus free bytes on the volume. -/
structure RegFS where
  entries : List (String × String)
  avail : Nat
deriving DecidableEq, Repr

/-- Contents of the file at a path, none when absent. -/
def RegFS.get (fs : RegFS) (p : String) : Option String := fs.entries.lookup p

/-- Creation or whole-file replacement. -/
def RegFS.set (fs : RegFS) (p c : String) : RegFS :=
  { fs with entries := (p, c) :: fs.entries.filter (fun q => q.1 != p) }

/-- os.unlink. -/
def RegFS.del (fs : RegFS) (p : String) : RegFS :=
  { fs with entries := fs.entries.filter (fun q => q.1 != p) }

/-- The clean-exit branch of RegistryContext.__exit__ after commit and
close: assertCanCopy from the temporary file to the live path, then
os.unlink of the live registry when it exists, then os.rename of the
temporary file onto the live path.  The returned list is the sequence of
filesystem states a concurrent reader can observe: before, between unlink
and rename, and after. -/
def RegistryContext.exitSuccess (fs : RegFS) (live temp : String) :
    List RegFS × Except Err Unit :=
  match fs.get temp with
  | none => ([fs], .error (.runtimeError "stat"))
  | some newC =>
    if fs.avail < newC.length then ([fs], .error (.runtimeError "Insufficient space"))
    else
      let s1 := if (fs.get live).isSome then fs.del live else fs
      let s2 := (s1.set live newC).del temp
      ([fs, s1, s2], .ok ())

/-- The part of a RegistryContext session that runs once the temporary
file holds its starting contents: createTableFunc may mutate the working
copy or raise, then the body's mutations are applied; the session then
raises, so __exit__ only commits and closes, touching neither path. -/
def RegistryContext.sessionBody (fs : RegFS) (temp : String)
    (createT : Option String → Except Err String)
    (bodyMut : String → String) : RegFS :=
  match createT (fs.get temp) with
  | .error _ => fs
  | .ok c => (fs.set temp c).set temp (bodyMut c)

/-- A whole registry session that raises before reaching publish:
RegistryContext.__init__ creates the temporary file (delete=False), copies
an existing live registry into it after the space precheck, connects and
runs createTableFunc; the run body then mutates only the working copy and
raises.  Every mutation made before the raise persists; the error branch
of __exit__ performs no unlink and no rename. -/
def RegistryContext.sessionRaise (fs0 : RegFS) (live temp : String)
    (createT : Option String → Except Err String)
    (bodyMut : String → String) : RegFS :=
  let fs1 := fs0.set temp ""
  match fs0.get live with
  | some c =>
    if fs1.avail < c.length then fs1
    else RegistryContext.sessionBody (fs1.set temp c) temp createT bodyMut
  | none => RegistryContext.sessionBody fs1 temp createT bodyMut

/-- Whether an embedded computation raised. -/
def exceptErrored {α : Type} : Except Err α → Bool
  | .error _ => true
  | .ok _ => false

/-- Decidable equality on embedded results. -/
instance instDecEqExcept {ε α : Type} [DecidableEq ε] [DecidableEq α] :
    DecidableEq (Except ε α) := fun a b =>
  match a, b with
  | .error e1, .error e2 =>
    if h : e1 = e2 then isTrue (by rw [h]) else isFalse (by intro hh; cases hh; exact h rfl)
  | .ok v1, .ok v2 =>
    if h : v1 = v2 then isTrue (by rw [h]) else isFalse (by intro hh; cases hh; exact h rfl)
  | .error _, .ok _ => isFalse (by intro hh; cases hh)
  | .ok _, .error _ => isFalse (by intro hh; cases hh)

/-- Filesystem component of a driver result, none when the run raised. -/
def fsPart (r : Except Err (FS × Option Registry × List Event)) : Option FS :=
  r.toOption.map (fun st => st.1)

/-- Registry-handle component of a driver result, none when the run
raised. -/
def regPart (r : Except Err (FS × Option Registry × List Event)) :
    Option (Option Registry) :=
  r.toOption.map (fun st => st.2.1)

/-- Event-log component of a driver result, none when the run raised. -/
def logPart (r : Except Err (FS × Option Registry × List Event)) :
    Option (List Event) :=
  r.toOption.map (fun st => st.2.2)

/-- Exact agreement of a stored row with given bound values on the unique
columns (the form in which a coerced unique tuple is present in a table). -/
def uniqueRowEq (cfg : RegisterConfig) (r : Row) (vals : List Value) : Bool :=
  (cfg.unique.zip vals).all (fun cv => r.lookup cv.1 == some cv.2)

/-- A small schema used by the concrete scenarios: three columns, unique
over (visit, ccd), visit table over (visit, filter). -/
def cfgSmall : RegisterConfig :=
  { table := "raw",
    columns := [("visit", ColType.int), ("ccd", ColType.int), ("filter", ColType.text)],
    unique := ["visit", "ccd"],
    visit := ["visit", "filter"],
    ignore := false,
    permissions := 0o664 }

/-- A stored file-table row: visit 1, ccd 1, filter r. -/
def rowX : Row := [("visit", Value.int 1), ("ccd", Value.int 1), ("filter", Value.text "r")]

/-- The extracted properties matching rowX. -/
def infoX : Info := [("visit", Value.int 1), ("ccd", Value.int 1), ("filter", Value.text "r")]

/-- A registry already holding rowX and its visit projection. -/
def regW : Registry :=
  { fileTable := [rowX],
    visitTable := [[("visit", Value.int 1), ("filter", Value.text "r")]] }

/-- A registry-directory state with a live registry and a completed
temporary working copy. -/
def fsPub : RegFS :=
  { entries := [("registry.sqlite3", "OLDDB"), ("registry.sqlite3tmp42", "NEWDB")],
    avail := 1000 }

/-- Ingest configuration for the concrete scenarios: strict (allowError
false), no clobber, small schema. -/
def cfgIngSmall : IngestConfig :=
  { register := cfgSmall, allowError := false, clobber := false }

/-- Properties of a second, distinct file: visit 2, ccd 1, filter r. -/
def infoF2 : Info := [("visit", Value.int 2), ("ccd", Value.int 1), ("filter", Value.text "r")]

/-- Metadata extraction for the strict-mode scenario: f1 is unreadable,
anything else yields infoF2 with a single HDU. -/
def parseC3 (f : String) : Except Err (Info × List Info) :=
  if f = "f1" then .error (.externalError "unreadable file") else .ok (infoF2, [infoF2])

/-- Destination resolution used by the concrete run scenarios. -/
def destFixed (_ : Info) : Except Err String := .ok "/out/f2.fits"

/-- Glob expansion in which every pattern names exactly one existing
file. -/
def globId (p : String) : List String := [p]

/-- Arguments for the strict-mode scenario: two files, link mode, no
dry-run. -/
def argsC3 : Args :=
  { files := ["f1", "f2"], badFile := [], badId := [], ignoreIngested := false,
    mode := Mode.link, dryrun := false, create := false }

/-- Starting filesystem for the run scenarios: both input files exist and
the output directory is present. -/
def fsRun : FS :=
  { files := [("f1", FEntry.file "AA"), ("f2", FEntry.file "BB")],
    dirs := ["/out"], avail := 100 }

/-- Metadata extraction that always succeeds with infoX. -/
def parseX (_ : String) : Except Err (Info × List Info) := .ok (infoX, [infoX])

/-- Arguments for the dry-run scenario. -/
def argsDry : Args :=
  { files := ["f1"], badFile := [], badId := [], ignoreIngested := true,
    mode := Mode.link, dryrun := true, create := false }

/-- Arguments for the matching real (non-dry) scenario. -/
def argsReal : Args :=
  { files := ["f1"], badFile := [], badId := [], ignoreIngested := true,
    mode := Mode.link, dryrun := false, create := false }

/-- A file table holding two rows that share the visit key 1 but differ in
the other visit columns (filter r versus g). -/
def regMultiCombo : Registry :=
  { fileTable :=
      [[("visit", Value.int 1), ("ccd", Value.int 1), ("filter", Value.text "r")],
       [("visit", Value.int 1), ("ccd", Value.int 2), ("filter", Value.text "g")]],
    visitTable := [] }

/-- The small schema with an unknown column named in the visit list. -/
def cfgBadVisit : RegisterConfig := { cfgSmall with visit := ["visit", "bogus"] }

/-- A raw configuration whose expTime column carries an invalid type
string. -/
def rawBadType : RawRegisterConfig :=
  { columns := [("visit", "int"), ("ccd", "int"), ("expTime", "float")] }

/-- The small schema in duplicate-tolerant mode. -/
def cfgIgn : RegisterConfig := { cfgSmall with ignore := true }

/-- The rational 3/2 in normal form (the Python float 1.5). -/
def ratHalf : Rat := ⟨3, 2, by decide, by decide⟩

/-- A record whose visit value is supplied as the float 1.5 where the
column type is int: coercion truncates it to 1, the raw value stays 1.5. -/
def infoHalf : Info :=
  [("visit", Value.real ratHalf), ("ccd", Value.int 1), ("filter", Value.text "r")]

/-- A registry holding only rowX, with an empty visit table. -/
def regX : Registry := { fileTable := [rowX], visitTable := [] }

/-- An empty registry (no rows yet). -/
def regEmpty : Registry := { fileTable := [], visitTable := [] }

/-- A filesystem in which the move destination already exists. -/
def fsC8 : FS :=
  { files := [("f1", FEntry.file "AA"), ("/out/f2.fits", FEntry.file "OLD")],
    dirs := ["/out"], avail := 100 }

/-- Arguments for the move-without-clobber scenario. -/
def argsC8 : Args :=
  { files := ["f1"], badFile := [], badId := [], ignoreIngested := false,
    mode := Mode.move, dryrun := false, create := false }

theorem lookup_filter_ne {α : Type} (p q : String) (h : q ≠ p) :
    ∀ (l : List (String × α)), (l.filter (fun x => x.1 != p)).lookup q = l.lookup q := by
  intro l
  induction l with
  | nil => rfl
  | cons a l ih =>
    rcases a with ⟨k, v⟩
    by_cases hk : k = p
    · subst hk
      have h1 : (k != k) = false := by simp
      have h2 : (q == k) = false := by simp [h]
      simp [List.filter_cons, h1, List.lookup, h2, ih]
    · have h1 : (k != p) = true := by simp [hk]
      by_cases hq : q = k
      · subst hq
        simp [List.filter_cons, h1, List.lookup]
      · have h2 : (q == k) = false := by simp [hq]
        simp [List.filter_cons, h1, List.lookup, h2, ih]

theorem lookup_filter_self {α : Type} (p : String) :
    ∀ (l : List (String × α)), (l.filter (fun x => x.1 != p)).lookup p = none := by
  intro l
  induction l with
  | nil => rfl
  | cons a l ih =>
    rcases a with ⟨k, v⟩
    by_cases hk : k = p
    · subst hk
      have h1 : (k != k) = false := by simp
      simp [List.filter_cons, h1, ih]
    · have h1 : (k != p) = true := by simp [hk]
      have h2 : (p == k) = false := by simp [Ne.symm hk]
      simp [List.filter_cons, h1, List.lookup, h2, ih]

theorem RegFS.get_set_self (fs : RegFS) (p c : String) : (fs.set p c).get p = some c := by
  simp [RegFS.get, RegFS.set, List.lookup]

theorem RegFS.get_set_ne (fs : RegFS) (p c q : String) (h : q ≠ p) :
    (fs.set p c).get q = fs.get q := by
  have h2 : (q == p) = false := by simp [h]
  simp [RegFS.get, RegFS.set, List.lookup, h2, lookup_filter_ne p q h]

theorem RegFS.get_del_self (fs : RegFS) (p : String) : (fs.del p).get p = none := by
  simp [RegFS.get, RegFS.del, lookup_filter_self]

theorem RegFS.get_del_ne (fs : RegFS) (p q : String) (h : q ≠ p) :
    (fs.del p).get q = fs.get q := by
  simp [RegFS.get, RegFS.del, lookup_filter_ne p q h]

theorem exitSuccess_states (fs : RegFS) (live temp newC : String)
    (htemp : fs.get temp = some newC)
    (hav : ¬ fs.avail < newC.length) :
    RegistryContext.exitSuccess fs live temp =
      ([fs, if (fs.get live).isSome then fs.del live else fs,
        ((if (fs.get live).isSome then fs.del live else fs).set live newC).del temp],
       .ok ()) := by
  simp only [RegistryContext.exitSuccess, htemp]
  rw [if_neg hav]

theorem s1_get_none (fs : RegFS) (live : String) :
    ((if (fs.get live).isSome then fs.del live else fs).get live) = none := by
  by_cases h : (fs.get live).isSome
  · simp [h, RegFS.get_del_self]
  · simp only [h, if_false, Bool.false_eq_true]
    exact Option.not_isSome_iff_eq_none.mp (by simpa using h)

theorem sessionBody_get (fs : RegFS) (temp live : String)
    (createT : Option String → Except Err String) (bodyMut : String → String)
    (hneq : temp ≠ live) (hts : ((fs.get temp).isSome) = true) :
    (RegistryContext.sessionBody fs temp createT bodyMut).get live = fs.get live ∧
    ((RegistryContext.sessionBody fs temp createT bodyMut).get temp).isSome = true := by
  unfold RegistryContext.sessionBody
  cases h : createT (fs.get temp) with
  | error e => exact ⟨rfl, hts⟩
  | ok c =>
    constructor
    · rw [RegFS.get_set_ne _ _ _ _ (fun hh => hneq hh.symm),
          RegFS.get_set_ne _ _ _ _ (fun hh => hneq hh.symm)]
    · rw [RegFS.get_set_self]
      rfl

/-- Claim C2: a run that raises before reaching publish leaves the live
registry byte-for-byte unchanged and leaves the temporary working copy on
disk rather than renaming it over the live registry. -/
theorem c2_raise_leaves_live_registry_unchanged (fs0 : RegFS) (live temp : String)
    (createT : Option String → Except Err String) (bodyMut : String → String)
    (hneq : temp ≠ live) :
    (RegistryContext.sessionRaise fs0 live temp createT bodyMut).get live = fs0.get live ∧
    ((RegistryContext.sessionRaise fs0 live temp createT bodyMut).get temp).isSome = true := by
  unfold RegistryContext.sessionRaise
  have hset : (fs0.set temp "").get live = fs0.get live :=
    RegFS.get_set_ne _ _ _ _ (fun hh => hneq hh.symm)
  cases hl : fs0.get live with
  | some c =>
    by_cases hav : (fs0.set temp "").avail < c.length
    · simp only [hl, hav, if_true]
      exact ⟨hset.trans hl, by rw [RegFS.get_set_self]; rfl⟩
    · simp only [hl, hav, if_false]
      have h1 := sessionBody_get ((fs0.set temp "").set temp c) temp live createT bodyMut hneq
        (by rw [RegFS.get_set_self]; rfl)
      refine ⟨?_, h1.2⟩
      rw [h1.1, RegFS.get_set_ne _ _ _ _ (fun hh => hneq hh.symm), hset, hl]
  | none =>
    have h1 := sessionBody_get (fs0.set temp "") temp live createT bodyMut hneq
      (by rw [RegFS.get_set_self]; rfl)
    exact ⟨h1.1.trans (hset.trans hl), h1.2⟩

/-- Claim C2 witness: a concrete session over a live registry OLDDB with a
createTable step and body mutations, raising before publish. -/
theorem c2_raise_witness :
    ("registry.sqlite3tmp42" ≠ "registry.sqlite3") ∧
    (RegistryContext.sessionRaise fsPub "registry.sqlite3" "registry.sqlite3tmp42"
      (fun _ => Except.ok "TABLES") (fun c => c ++ "+ROWS")).get "registry.sqlite3"
      = fsPub.get "registry.sqlite3" ∧
    ((RegistryContext.sessionRaise fsPub "registry.sqlite3" "registry.sqlite3tmp42"
      (fun _ => Except.ok "TABLES") (fun c => c ++ "+ROWS")).get "registry.sqlite3tmp42").isSome
      = true :=
  ⟨by decide,
   (c2_raise_leaves_live_registry_unchanged fsPub "registry.sqlite3" "registry.sqlite3tmp42"
     (fun _ => Except.ok "TABLES") (fun c => c ++ "+ROWS") (by decide)).1,
   (c2_raise_leaves_live_registry_unchanged fsPub "registry.sqlite3" "registry.sqlite3tmp42"
     (fun _ => Except.ok "TABLES") (fun c => c ++ "+ROWS") (by decide)).2⟩

/-- Claim C1 counterexample: with a live registry OLDDB and a completed
temporary copy NEWDB, the publish sequence passes through a state in which
the live path holds no file at all (between unlink and rename), so a
reader does not always observe the fully-old or fully-new registry and the
replacement is not a single atomic rename. -/
theorem c1_counterexample :
    fsPub.get "registry.sqlite3" = some "OLDDB" ∧
    (RegistryContext.exitSuccess fsPub "registry.sqlite3" "registry.sqlite3tmp42").2 = .ok () ∧
    ¬ (∀ s ∈ (RegistryContext.exitSuccess fsPub "registry.sqlite3" "registry.sqlite3tmp42").1,
        s.get "registry.sqlite3" = some "OLDDB" ∨ s.get "registry.sqlite3" = some "NEWDB") := by
  refine ⟨by decide, rfl, ?_⟩
  intro h
  have := h ((fsPub.del "registry.sqlite3")) (by decide)
  revert this
  decide

/-- Claim C1 amended: the clean-completion publish is an unlink of the live
registry followed by a rename of the temporary copy; at every observable
moment the live path holds the fully-old contents, nothing, or the
fully-new contents (never a partial write), and afterwards it holds
exactly the new contents with the temporary file gone. -/
theorem c1_publish_old_new_or_absent (fs : RegFS) (live temp newC : String)
    (hneq : temp ≠ live) (htemp : fs.get temp = some newC)
    (hav : ¬ fs.avail < newC.length) :
    (RegistryContext.exitSuccess fs live temp).2 = .ok () ∧
    ((RegistryContext.exitSuccess fs live temp).1.all (fun s =>
      s.get live == fs.get live || s.get live == none || s.get live == some newC)) = true ∧
    ((RegistryContext.exitSuccess fs live temp).1.getLast?.map
      (fun s => (s.get live, s.get temp))) = some (some newC, none) := by
  have hlive : live ≠ temp := fun h => hneq h.symm
  rw [exitSuccess_states fs live temp newC htemp hav]
  have h1 : ((if (fs.get live).isSome then fs.del live else fs).get live) = none :=
    s1_get_none fs live
  have h2 : (((if (fs.get live).isSome then fs.del live else fs).set live newC).del temp).get live
      = some newC := by
    rw [RegFS.get_del_ne _ _ _ hlive, RegFS.get_set_self]
  have h3 : (((if (fs.get live).isSome then fs.del live else fs).set live newC).del temp).get temp
      = none := RegFS.get_del_self _ _
  refine ⟨rfl, ?_, ?_⟩
  · simp [List.all_cons, h1, h2, h3]
  · simp [List.getLast?, h2, h3]

/-- Claim C1 witness: the amended publish property at the concrete
directory state. -/
theorem c1_publish_old_new_or_absent_witness :
    ("registry.sqlite3tmp42" ≠ "registry.sqlite3") ∧
    fsPub.get "registry.sqlite3tmp42" = some "NEWDB" ∧
    ((RegistryContext.exitSuccess fsPub "registry.sqlite3" "registry.sqlite3tmp42").1.all (fun s =>
      s.get "registry.sqlite3" == fsPub.get "registry.sqlite3" ||
      s.get "registry.sqlite3" == none ||
      s.get "registry.sqlite3" == some "NEWDB")) = true ∧
    ((RegistryContext.exitSuccess fsPub "registry.sqlite3" "registry.sqlite3tmp42").1.getLast?.map
      (fun s => (s.get "registry.sqlite3", s.get "registry.sqlite3tmp42")))
      = some (some "NEWDB", none) :=
  ⟨by decide, by decide,
   (c1_publish_old_new_or_absent fsPub "registry.sqlite3" "registry.sqlite3tmp42" "NEWDB"
     (by decide) (by decide) (by decide)).2.1,
   (c1_publish_old_new_or_absent fsPub "registry.sqlite3" "registry.sqlite3tmp42" "NEWDB"
     (by decide) (by decide) (by decide)).2.2⟩

/-- Claim C4: a pattern that glob-expands to zero files is dropped from
expandFiles's result instead of being kept as a literal path, contradicting
the function's own docstring and inline comment, which promise POSIX glob
fallback semantics. -/
theorem c4_zero_match_pattern_dropped :
    IngestTask.expandFiles (fun _ => []) ["nonexistent.fits"] = [] ∧
    IngestTask.expandFiles (fun _ => []) ["nonexistent.fits"] ≠ ["nonexistent.fits"] := by
  exact ⟨rfl, by decide⟩

/-- Claim C10: with duplicate-tolerance configured, addRow's NOT EXISTS
guard receives the raw, uncoerced unique-column values (visit stays the
float 1.5), while the INSERT parameters and the separate recordExists
check use values coerced to the configured column types (visit becomes
the int 1).  Behaviourally: check finds the stored row via the coerced
value, while addRow's guard compares the raw 1.5 against the stored 1,
misses, attempts the insert, and hits the unique constraint. -/
theorem c10_guard_uses_uncoerced_values :
    rawUniqueValues cfgIgn infoHalf = .ok [Value.real ratHalf, Value.int 1] ∧
    coercedUniqueValues cfgIgn infoHalf = .ok [Value.int 1, Value.int 1] ∧
    rawUniqueValues cfgIgn infoHalf ≠ coercedUniqueValues cfgIgn infoHalf ∧
    RegisterTask.check cfgSmall [rowX] infoHalf = .ok true ∧
    RegisterTask.addRow cfgIgn (some regX) false infoHalf = .error .integrityError := by
  refine ⟨rfl, rfl, by decide, rfl, rfl⟩

/-- Claim C9 counterexample: a schema whose visit list names a column
absent from the column mapping passes config validation, and the error
surfaces only inside table creation, after the temporary registry file has
been created and the connection opened — not before any I/O. -/
theorem c9_counterexample :
    RegisterTask.openRegistry cfgBadVisit false none false
      = ([RegIOEvent.createTempFile, RegIOEvent.connectDb], .error (.keyError "visit column")) ∧
    (RegisterTask.openRegistry cfgBadVisit false none false).1.contains
      RegIOEvent.createTempFile = true := by
  exact ⟨rfl, by decide⟩

/-- Claim C7 counterexample: a file table in which visit key 1 appears
with two distinct combinations of the visit columns (filter r and filter
g) makes the refresh raise a uniqueness violation instead of completing
with one visit row per key. -/
theorem c7_counterexample :
    RegisterTask.addVisits cfgSmall (some regMultiCombo) false = .error .integrityError := rfl

theorem mapME_errored_of_mem {α β : Type} (f : α → Except Err β) :
    ∀ (l : List α) (a : α), a ∈ l → exceptErrored (f a) = true →
      exceptErrored (mapME f l) = true := by
  intro l
  induction l with
  | nil => intro a ha; cases ha
  | cons x xs ih =>
    intro a ha he
    simp only [mapME]
    cases hfx : f x with
    | error e => rfl
    | ok b =>
      rcases List.mem_cons.mp ha with h1 | h2
      · rw [h1, hfx] at he
        simp [exceptErrored] at he
      · have hxs := ih a h2 he
        cases hmm : mapME f xs with
        | error e => rfl
        | ok bs =>
          rw [hmm] at hxs
          simp [exceptErrored] at hxs

theorem buildTables_errored (cfg : RegisterConfig)
    (hcols : (cfg.unique.any (fun c => !(cfg.columns.map Prod.fst).contains c)
      || cfg.visit.any (fun c => !(cfg.columns.map Prod.fst).contains c)) = true) :
    exceptErrored (RegisterTask.buildTables cfg) = true := by
  unfold RegisterTask.buildTables
  rcases Bool.or_eq_true_iff.mp hcols with h | h
  · rw [if_pos h]
    rfl
  · by_cases hu : cfg.unique.any (fun c => !(cfg.columns.map Prod.fst).contains c) = true
    · rw [if_pos hu]
      rfl
    · rw [if_neg hu, if_pos h]
      rfl

/-- Claim C9 amended: invalid column types are rejected by config
validation at startup, before any I/O; but a unique or visit column that
references a column absent from the column mapping is only detected inside
table creation, after the temporary registry file has been created (and
after any existing registry has been copied into it). -/
theorem c9_config_validation_timing :
    (∀ (raw : RawRegisterConfig) (p : String × String), p ∈ raw.columns →
      ColType.ofString p.2 = none → exceptErrored (validateConfig raw) = true) ∧
    (∀ (cfg : RegisterConfig) (live : Option Registry) (force : Bool),
      (live = none ∨ force = true) →
      (cfg.unique.any (fun c => !(cfg.columns.map Prod.fst).contains c)
        || cfg.visit.any (fun c => !(cfg.columns.map Prod.fst).contains c)) = true →
      exceptErrored (RegisterTask.openRegistry cfg false live force).2 = true ∧
      (RegisterTask.openRegistry cfg false live force).1.contains
        RegIOEvent.createTempFile = true) := by
  constructor
  · intro raw p hp hbad
    unfold validateConfig
    have herr : exceptErrored ((fun ct =>
        match ColType.ofString ct.2 with
        | some t => Except.ok (ct.1, t)
        | none => Except.error (Err.configError ct.2)) p) = true := by
      simp [hbad, exceptErrored]
    have := mapME_errored_of_mem (fun ct =>
        match ColType.ofString ct.2 with
        | some t => Except.ok (ct.1, t)
        | none => Except.error (Err.configError ct.2)) raw.columns p hp herr
    cases hmm : mapME (fun ct =>
        match ColType.ofString ct.2 with
        | some t => Except.ok (ct.1, t)
        | none => Except.error (Err.configError ct.2)) raw.columns with
    | error e => rfl
    | ok cols =>
      rw [hmm] at this
      simp [exceptErrored] at this
  · intro cfg live force hlf hcols
    have hbt := buildTables_errored cfg hcols
    have hct : exceptErrored (RegisterTask.createTable cfg live force) = true := by
      unfold RegisterTask.createTable
      rcases hlf with h | h
      · rw [h]
        exact hbt
      · cases live with
        | none => exact hbt
        | some reg => simp [h, hbt]
    unfold RegisterTask.openRegistry
    cases hc : RegisterTask.createTable cfg live force with
    | error e => cases live <;> simp [exceptErrored]
    | ok reg =>
      rw [hc] at hct
      simp [exceptErrored] at hct

/-- Claim C9 witness: the amended timing property at a concrete invalid
type string and a concrete unknown visit column. -/
theorem c9_config_validation_timing_witness :
    exceptErrored (validateConfig rawBadType) = true ∧
    exceptErrored (RegisterTask.openRegistry cfgBadVisit false none false).2 = true ∧
    (RegisterTask.openRegistry cfgBadVisit false none false).1.contains
      RegIOEvent.createTempFile = true :=
  ⟨c9_config_validation_timing.1 rawBadType ("expTime", "float") (by decide) (by decide),
   (c9_config_validation_timing.2 cfgBadVisit none false (Or.inl rfl) (by decide)).1,
   (c9_config_validation_timing.2 cfgBadVisit none false (Or.inl rfl) (by decide)).2⟩

/-- Claim C3 counterexample: with strict mode configured (allowError
false), a batch of two files in which extraction fails on the first still
runs to completion — the run is not aborted — and the second file's row is
registered: the run-level loop catches the propagated error, warns, and
continues. -/
theorem c3_counterexample :
    cfgIngSmall.allowError = false ∧
    exceptErrored (parseC3 "f1") = true ∧
    ((IngestTask.run cfgIngSmall parseC3 destFixed globId argsC3 fsRun none).2.toOption.map
      (fun st => st.2.1.map (fun r => r.fileTable.length))) = some (some 1) := by
  exact ⟨rfl, rfl, rfl⟩

/-- Claim C3 amended: in strict mode an extraction or transport error does
propagate out of the per-file step (runFile), aborting that file's
processing with no row registered — but IngestTask.run's per-file except
clause catches the propagated error, logs a warning and continues with the
remaining files, so the whole run is not aborted. -/
theorem c3_strict_error_propagates_but_run_continues
    (cfg : IngestConfig) (parseInfo : String → Except Err (Info × List Info))
    (destOf : Info → Except Err String) (args : Args) (fs : FS)
    (regOpt : Option Registry) (log : List Event) (infile : String)
    (hstrict : cfg.allowError = false)
    (hbad : IngestTask.isBadFile infile args.badFile = false) :
    (∀ e, parseInfo infile = .error e →
      (IngestTask.runFile cfg parseInfo destOf args fs regOpt infile).2.2 = .error e ∧
      IngestTask.loopBody cfg parseInfo destOf args (fs, regOpt, log) infile =
        .ok (fs, regOpt, log ++ [Event.extractMeta infile, Event.warned infile])) ∧
    (∀ fileInfo hl outfile,
      parseInfo infile = .ok (fileInfo, hl) →
      IngestTask.isBadId fileInfo args.badId = .ok false →
      regOpt = none →
      destOf fileInfo = .ok outfile →
      args.mode = Mode.move → args.dryrun = false → cfg.clobber = false →
      fs.isdir (dirname outfile) = true → fs.lexists outfile = true →
      (IngestTask.runFile cfg parseInfo destOf args fs regOpt infile).2.2 =
        .error (.runtimeError "File exists") ∧
      IngestTask.loopBody cfg parseInfo destOf args (fs, regOpt, log) infile =
        .ok (fs, regOpt,
          log ++ [Event.extractMeta infile, Event.warned infile, Event.warned infile])) := by
  constructor
  · intro e he
    have hrf : IngestTask.runFile cfg parseInfo destOf args fs regOpt infile =
        (fs, [Event.extractMeta infile], .error e) := by
      simp [IngestTask.runFile, hbad, he, hstrict]
    refine ⟨by rw [hrf], ?_⟩
    simp [IngestTask.loopBody, hrf]
  · intro fileInfo hl outfile hp hb hro hd hm hdr hcl hdir hex
    have hing : IngestTask.ingest cfg.clobber cfg.allowError args.mode args.dryrun
        fs infile outfile =
        (fs, [Event.warned infile], .error (.runtimeError "File exists")) := by
      have htry : IngestTask.ingestTry cfg.clobber Mode.move fs infile outfile =
          (fs, [], .error (.runtimeError "File exists")) := by
        simp [IngestTask.ingestTry, hdir, hex, hcl]
      simp [IngestTask.ingest, hm, hdr, htry, hstrict]
    have hrf : IngestTask.runFile cfg parseInfo destOf args fs regOpt infile =
        (fs, [Event.extractMeta infile, Event.warned infile],
         .error (.runtimeError "File exists")) := by
      simp [IngestTask.runFile, hbad, hp, hb, hro, IngestTask.runFileChecked,
        IngestTask.runFileTransport, hd, hing]
    refine ⟨by rw [hrf], ?_⟩
    simp [IngestTask.loopBody, hrf]

/-- Claim C3 witness: the amended behaviour at the concrete strict-mode
scenario (unreadable file f1). -/
theorem c3_strict_witness :
    (IngestTask.runFile cfgIngSmall parseC3 destFixed argsC3 fsRun none "f1").2.2
      = .error (.externalError "unreadable file") ∧
    IngestTask.loopBody cfgIngSmall parseC3 destFixed argsC3 (fsRun, none, []) "f1"
      = .ok (fsRun, none, [Event.extractMeta "f1", Event.warned "f1"]) := by
  have h := (c3_strict_error_propagates_but_run_continues cfgIngSmall parseC3 destFixed
    argsC3 fsRun none [] "f1" rfl (by decide)).1 (.externalError "unreadable file") rfl
  exact ⟨h.1, h.2⟩

/-- Claim C8: a move-mode transport whose destination already exists with
clobber disabled fails (never returns success), leaves the source file's
entry untouched, and leads to no registry row for that file: the per-file
step yields no row list, so the registry is unchanged after the file's
loop iteration. -/
theorem c8_move_existing_no_clobber
    (cfg : IngestConfig) (parseInfo : String → Except Err (Info × List Info))
    (destOf : Info → Except Err String) (args : Args) (fs : FS) (reg : Registry)
    (log : List Event) (infile outfile : String) (fileInfo : Info) (hl : List Info)
    (hm : args.mode = Mode.move) (hcl : cfg.clobber = false) (hdr : args.dryrun = false)
    (hbad : IngestTask.isBadFile infile args.badFile = false)
    (hp : parseInfo infile = .ok (fileInfo, hl))
    (hb : IngestTask.isBadId fileInfo args.badId = .ok false)
    (hchk : RegisterTask.check cfg.register reg.fileTable fileInfo = .ok false)
    (hd : destOf fileInfo = .ok outfile)
    (hex : fs.lexists outfile = true) :
    (IngestTask.ingest cfg.clobber cfg.allowError args.mode args.dryrun fs infile outfile).2.2
      ≠ .ok true ∧
    regPart (IngestTask.loopBody cfg parseInfo destOf args (fs, some reg, log) infile)
      = some (some reg) ∧
    (fsPart (IngestTask.loopBody cfg parseInfo destOf args (fs, some reg, log) infile)).map
      (fun f2 => f2.files.lookup infile) = some (fs.files.lookup infile) := by
  obtain ⟨fs1, hfs1, ev1, htry⟩ :
      ∃ fs1 : FS, fs1.files = fs.files ∧ ∃ ev1 : List Event,
        IngestTask.ingestTry cfg.clobber Mode.move fs infile outfile =
          (fs1, ev1, .error (.runtimeError "File exists")) := by
    by_cases hdir : fs.isdir (dirname outfile)
    · exact ⟨fs, rfl, [], by simp [IngestTask.ingestTry, hdir, hex, hcl]⟩
    · refine ⟨{ fs with dirs := dirname outfile :: fs.dirs }, rfl,
        [Event.fsMkdir (dirname outfile)], ?_⟩
      have hex2 : FS.lexists { fs with dirs := dirname outfile :: fs.dirs } outfile = true := hex
      simp [IngestTask.ingestTry, hdir, hex2, hcl]
  have hing : IngestTask.ingest cfg.clobber cfg.allowError args.mode args.dryrun fs infile outfile
      = (fs1, ev1 ++ [Event.warned infile],
         if cfg.allowError then .ok false else .error (.runtimeError "File exists")) := by
    by_cases hae : cfg.allowError <;> simp [IngestTask.ingest, hm, hdr, htry, hae]
  refine ⟨?_, ?_⟩
  · rw [hing]
    by_cases hae : cfg.allowError <;> simp [hae]
  · by_cases hae : cfg.allowError
    · have hing2 : IngestTask.ingest cfg.clobber cfg.allowError args.mode args.dryrun
          fs infile outfile = (fs1, ev1 ++ [Event.warned infile], .ok false) := by
        rw [hing, if_pos hae]
      have hrf : IngestTask.runFile cfg parseInfo destOf args fs (some reg) infile
          = (fs1,
             [Event.extractMeta infile, Event.checkRegistry infile] ++ (ev1 ++ [Event.warned infile]),
             .ok none) := by
        simp [IngestTask.runFile, hbad, hp, hb, IngestTask.runFileChecked, hchk,
          IngestTask.runFileTransport, hd, hing2]
      simp [IngestTask.loopBody, hrf, regPart, fsPart, Except.toOption, hfs1]
    · have hing2 : IngestTask.ingest cfg.clobber cfg.allowError args.mode args.dryrun
          fs infile outfile
          = (fs1, ev1 ++ [Event.warned infile], .error (.runtimeError "File exists")) := by
        rw [hing, if_neg hae]
      have hrf : IngestTask.runFile cfg parseInfo destOf args fs (some reg) infile
          = (fs1,
             [Event.extractMeta infile, Event.checkRegistry infile] ++ (ev1 ++ [Event.warned infile]),
             .error (.runtimeError "File exists")) := by
        simp [IngestTask.runFile, hbad, hp, hb, IngestTask.runFileChecked, hchk,
          IngestTask.runFileTransport, hd, hing2]
      simp [IngestTask.loopBody, hrf, regPart, fsPart, Except.toOption, hfs1]

/-- Claim C8 witness: the concrete move-without-clobber scenario on an
existing destination. -/
theorem c8_move_existing_no_clobber_witness :
    (IngestTask.ingest cfgIngSmall.clobber cfgIngSmall.allowError argsC8.mode argsC8.dryrun
      fsC8 "f1" "/out/f2.fits").2.2 ≠ .ok true ∧
    regPart (IngestTask.loopBody cfgIngSmall parseX destFixed argsC8 (fsC8, some regEmpty, []) "f1")
      = some (some regEmpty) ∧
    (fsPart (IngestTask.loopBody cfgIngSmall parseX destFixed argsC8
      (fsC8, some regEmpty, []) "f1")).map (fun f2 => f2.files.lookup "f1")
      = some (fsC8.files.lookup "f1") :=
  c8_move_existing_no_clobber cfgIngSmall parseX destFixed argsC8 fsC8 regEmpty []
    "f1" "/out/f2.fits" infoX [infoX] rfl rfl rfl (by decide) rfl rfl rfl rfl (by decide)

theorem mapME_ok_length {α β : Type} (f : α → Except Err β) :
    ∀ (l : List α) (bs : List β), mapME f l = .ok bs → l.length = bs.length := by
  intro l
  induction l with
  | nil => intro bs h; simp only [mapME] at h; cases h; rfl
  | cons x xs ih =>
    intro bs h
    simp only [mapME] at h
    cases hf : f x with
    | error e => rw [hf] at h; cases h
    | ok b =>
      rw [hf] at h
      cases hr : mapME f xs with
      | error e => rw [hr] at h; cases h
      | ok cs =>
        rw [hr] at h
        cases h
        simp [ih cs hr]

theorem mapME_ok_mem_zip {α β : Type} (f : α → Except Err β) :
    ∀ (l : List α) (bs : List β), mapME f l = .ok bs →
      ∀ p ∈ l.zip bs, f p.1 = .ok p.2 := by
  intro l
  induction l with
  | nil => intro bs h p hp; simp at hp
  | cons x xs ih =>
    intro bs h p hp
    simp only [mapME] at h
    cases hf : f x with
    | error e => rw [hf] at h; cases h
    | ok b =>
      rw [hf] at h
      cases hr : mapME f xs with
      | error e => rw [hr] at h; cases h
      | ok cs =>
        rw [hr] at h
        cases h
        rcases List.mem_cons.mp hp with h1 | h2
        · rw [h1]; exact hf
        · exact ih cs hr p h2

theorem zip_mem_left {α β : Type} :
    ∀ (l : List α) (bs : List β), l.length = bs.length →
      ∀ c ∈ l, ∃ b, (c, b) ∈ l.zip bs := by
  intro l
  induction l with
  | nil => intro bs h c hc; cases hc
  | cons x xs ih =>
    intro bs h c hc
    cases bs with
    | nil => cases h
    | cons b cs =>
      rcases List.mem_cons.mp hc with h1 | h2
      · exact ⟨b, by rw [h1]; exact List.mem_cons_self _ _⟩
      · obtain ⟨b2, hb2⟩ := ih cs (by simpa using h) c h2
        exact ⟨b2, List.mem_cons_of_mem _ hb2⟩

theorem affEq_refl (ct : ColType) (v : Value) : affEq ct v v = true := by
  cases ct with
  | text => simp [affEq]
  | int =>
    cases htn : toNum v with
    | some x => simp [affEq, htn]
    | none =>
      cases v with
      | text s => simp [affEq, htn]
      | int i => simp [toNum] at htn
      | real q => simp [toNum] at htn
  | double =>
    cases htn : toNum v with
    | some x => simp [affEq, htn]
    | none =>
      cases v with
      | text s => simp [affEq, htn]
      | int i => simp [toNum] at htn
      | real q => simp [toNum] at htn

theorem coercedUnique_component (cfg : RegisterConfig) (info : Info) (vals : List Value)
    (hu : coercedUniqueValues cfg info = .ok vals) :
    ∀ p ∈ cfg.unique.zip vals, ∃ ct v,
      cfg.columns.lookup p.1 = some ct ∧ info.lookup p.1 = some v ∧
      coerceVal ct v = .ok p.2 := by
  intro p hp
  have hg := mapME_ok_mem_zip _ _ _ hu p hp
  rcases hlc : cfg.columns.lookup p.1 with _ | ct
  · rw [hlc] at hg; cases hg
  · rw [hlc] at hg
    rcases hlv : info.lookup p.1 with _ | v
    · simp [lookupE, hlv] at hg
    · simp only [lookupE, hlv] at hg
      exact ⟨ct, v, rfl, rfl, hg⟩

theorem rowMatchesUnique_of_eq (cfg : RegisterConfig) (info : Info) (vals : List Value) (r : Row)
    (hu : coercedUniqueValues cfg info = .ok vals)
    (hr : uniqueRowEq cfg r vals = true) :
    rowMatchesUnique cfg r vals = true := by
  unfold rowMatchesUnique
  rw [List.all_eq_true]
  intro cv hcv
  obtain ⟨ct, v, hlc, _, _⟩ := coercedUnique_component cfg info vals hu cv hcv
  have hrc : r.lookup cv.1 = some cv.2 := by
    have := List.all_eq_true.mp hr cv hcv
    exact eq_of_beq this
  simp [hlc, hrc, affEq_refl]

theorem mkRow_lookup_aux (info : Info) :
    ∀ (cols : List (String × ColType)) (rowVals : List Value) (c : String) (ct : ColType)
      (v cv : Value),
      mapME (fun ct2 =>
        match lookupE info ct2.1 with
        | .error e => .error e
        | .ok w => coerceVal ct2.2 w) cols = .ok rowVals →
      cols.lookup c = some ct → info.lookup c = some v → coerceVal ct v = .ok cv →
      ((cols.map Prod.fst).zip rowVals).lookup c = some cv := by
  intro cols
  induction cols with
  | nil => intro rowVals c ct v cv hm hl; cases hl
  | cons p ps ih =>
    intro rowVals c ct v cv hm hl hv hcv
    rcases p with ⟨c0, t0⟩
    simp only [mapME] at hm
    cases hf : (match lookupE info c0 with
        | .error e => .error e
        | .ok w => coerceVal t0 w : Except Err Value) with
    | error e => rw [hf] at hm; cases hm
    | ok b0 =>
      rw [hf] at hm
      cases hrest : mapME (fun ct2 =>
          match lookupE info ct2.1 with
          | .error e => .error e
          | .ok w => coerceVal ct2.2 w) ps with
      | error e => rw [hrest] at hm; cases hm
      | ok bs =>
        rw [hrest] at hm
        cases hm
        by_cases hc : c = c0
        · subst hc
          have hct : ct = t0 := by
            simp [List.lookup] at hl
            exact hl.symm
          subst hct
          have hb0 : b0 = cv := by
            simp only [lookupE, hv] at hf
            rw [hf] at hcv
            cases hcv
            rfl
          subst hb0
          simp [List.lookup]
        · have hl2 : ps.lookup c = some ct := by
            have hne : (c == c0) = false := by simp [hc]
            simpa [List.lookup, hne] using hl
          have := ih bs c ct v cv hrest hl2 hv hcv
          have hne : (c == c0) = false := by simp [hc]
          simpa [List.lookup, hne] using this

theorem uniqueConflict_of_present (cfg : RegisterConfig) (info : Info)
    (vals rowVals : List Value) (r : Row) (tbl : List Row)
    (hne : cfg.unique.isEmpty = false)
    (hu : coercedUniqueValues cfg info = .ok vals)
    (hrow : coercedRowValues cfg info = .ok rowVals)
    (hr : r ∈ tbl) (heq : uniqueRowEq cfg r vals = true) :
    uniqueConflict cfg tbl (mkRow cfg rowVals) = true := by
  unfold uniqueConflict
  rw [Bool.and_eq_true]
  refine ⟨by simp [hne], ?_⟩
  rw [List.any_eq_true]
  refine ⟨r, hr, ?_⟩
  rw [List.all_eq_true]
  intro c hc
  have hlen := mapME_ok_length _ _ _ hu
  obtain ⟨w, hwmem⟩ := zip_mem_left _ _ hlen c hc
  obtain ⟨ct, v, hlc, hlv, hcw⟩ := coercedUnique_component cfg info vals hu (c, w) hwmem
  have hrc : r.lookup c = some w := by
    have := List.all_eq_true.mp heq (c, w) hwmem
    exact eq_of_beq this
  have hnew : (mkRow cfg rowVals).lookup c = some w :=
    mkRow_lookup_aux info cfg.columns rowVals c ct v w hrow hlc hlv hcw
  simp [hrc, hnew]

theorem check_finds (cfg : RegisterConfig) (info : Info) (tbl : List Row)
    (vals : List Value) (r : Row)
    (hig : cfg.ignore = false) (hne : cfg.unique.isEmpty = false)
    (hu : coercedUniqueValues cfg info = .ok vals)
    (hr : r ∈ tbl) (heq : uniqueRowEq cfg r vals = true) :
    RegisterTask.check cfg tbl info = .ok true := by
  unfold RegisterTask.check
  rw [hig, hne]
  simp only [Bool.or_self, Bool.false_eq_true, if_false]
  rw [hu]
  have : tbl.any (fun row => rowMatchesUnique cfg row vals) = true := by
    rw [List.any_eq_true]
    exact ⟨r, hr, rowMatchesUnique_of_eq cfg info vals r hu heq⟩
  simp [this]

theorem addRow_present_no_insert (cfg : RegisterConfig) (info : Info) (reg : Registry)
    (vals : List Value)
    (hig : cfg.ignore = true)
    (hne : cfg.unique.isEmpty = false)
    (hu : coercedUniqueValues cfg info = .ok vals)
    (hpres : ∃ r ∈ reg.fileTable, uniqueRowEq cfg r vals = true) :
    (∃ ev, RegisterTask.addRow cfg (some reg) false info = .ok (some reg, ev)) ∨
    (∃ e, RegisterTask.addRow cfg (some reg) false info = .error e) := by
  unfold RegisterTask.addRow
  cases hcr : coercedRowValues cfg info with
  | error e => exact Or.inr ⟨e, rfl⟩
  | ok rowVals =>
    rw [hig]
    simp only [if_true]
    cases hraw : rawUniqueValues cfg info with
    | error e => exact Or.inr ⟨e, rfl⟩
    | ok guardVals =>
      simp only [Bool.false_eq_true, if_false, hne, Bool.and_false, Bool.and_true]
      by_cases hgd : reg.fileTable.any (fun r => rowMatchesUnique cfg r guardVals) = true
      · left
        refine ⟨[], ?_⟩
        simp [hgd, hig, hne]
      · right
        obtain ⟨r, hr, heq⟩ := hpres
        have hconf := uniqueConflict_of_present cfg info vals rowVals r reg.fileTable hne hu hcr hr heq
        refine ⟨.integrityError, ?_⟩
        simp [hgd, hconf, hig, hne]

theorem runFile_some_eq (cfg : IngestConfig)
    (parseInfo : String → Except Err (Info × List Info))
    (destOf : Info → Except Err String) (args : Args) (fs : FS)
    (regOpt : Option Registry) (infile : String) (fileInfo : Info) (hl : List Info)
    (fs' : FS) (ev : List Event) (infos : List Info)
    (hp : parseInfo infile = .ok (fileInfo, hl))
    (hrf : IngestTask.runFile cfg parseInfo destOf args fs regOpt infile
      = (fs', ev, .ok (some infos))) :
    infos = hl := by
  have htr : ∀ (ev0 : List Event),
      IngestTask.runFileTransport cfg destOf args fs infile fileInfo hl ev0
        = (fs', ev, .ok (some infos)) → infos = hl := by
    intro ev0 htt
    cases hdo : destOf fileInfo with
    | error e =>
      have hval : IngestTask.runFileTransport cfg destOf args fs infile fileInfo hl ev0
          = (fs, ev0, .error e) := by
        simp [IngestTask.runFileTransport, hdo]
      rw [hval] at htt
      simp at htt
    | ok outfile =>
      rcases hing : IngestTask.ingest cfg.clobber cfg.allowError args.mode args.dryrun
          fs infile outfile with ⟨fs2, ev2, res⟩
      cases res with
      | error e =>
        have hval : IngestTask.runFileTransport cfg destOf args fs infile fileInfo hl ev0
            = (fs2, ev0 ++ ev2, .error e) := by
          simp [IngestTask.runFileTransport, hdo, hing]
        rw [hval] at htt
        simp at htt
      | ok b =>
        cases b with
        | true =>
          have hval : IngestTask.runFileTransport cfg destOf args fs infile fileInfo hl ev0
              = (fs2, ev0 ++ ev2, .ok (some hl)) := by
            simp [IngestTask.runFileTransport, hdo, hing]
          rw [hval] at htt
          simp only [Prod.mk.injEq] at htt
          have h3 := htt.2.2
          simp at h3
          exact h3.symm
        | false =>
          have hval : IngestTask.runFileTransport cfg destOf args fs infile fileInfo hl ev0
              = (fs2, ev0 ++ ev2, .ok none) := by
            simp [IngestTask.runFileTransport, hdo, hing]
          rw [hval] at htt
          simp at htt
  by_cases hbf : IngestTask.isBadFile infile args.badFile = true
  · have hval : IngestTask.runFile cfg parseInfo destOf args fs regOpt infile
        = (fs, [Event.warned infile], .ok none) := by
      simp [IngestTask.runFile, hbf]
    rw [hval] at hrf
    simp at hrf
  · cases hbi : IngestTask.isBadId fileInfo args.badId with
    | error e =>
      have hval : IngestTask.runFile cfg parseInfo destOf args fs regOpt infile
          = (fs, [Event.extractMeta infile], .error e) := by
        simp [IngestTask.runFile, hbf, hp, hbi]
      rw [hval] at hrf
      simp at hrf
    | ok bb =>
      cases bb with
      | true =>
        have hval : IngestTask.runFile cfg parseInfo destOf args fs regOpt infile
            = (fs, [Event.extractMeta infile, Event.warned infile], .ok none) := by
          simp [IngestTask.runFile, hbf, hp, hbi]
        rw [hval] at hrf
        simp at hrf
      | false =>
        cases regOpt with
        | none =>
          have hval : IngestTask.runFile cfg parseInfo destOf args fs none infile
              = IngestTask.runFileTransport cfg destOf args fs infile fileInfo hl
                  [Event.extractMeta infile] := by
            simp [IngestTask.runFile, hbf, hp, hbi, IngestTask.runFileChecked]
          exact htr _ (hval.symm.trans hrf)
        | some reg =>
          cases hck : RegisterTask.check cfg.register reg.fileTable fileInfo with
          | error e =>
            have hval : IngestTask.runFile cfg parseInfo destOf args fs (some reg) infile
                = (fs, [Event.extractMeta infile, Event.checkRegistry infile], .error e) := by
              simp [IngestTask.runFile, hbf, hp, hbi, IngestTask.runFileChecked, hck]
            rw [hval] at hrf
            simp at hrf
          | ok cb =>
            cases cb with
            | true =>
              by_cases hii : args.ignoreIngested = true
              · have hval : IngestTask.runFile cfg parseInfo destOf args fs (some reg) infile
                    = (fs, [Event.extractMeta infile, Event.checkRegistry infile], .ok none) := by
                  simp [IngestTask.runFile, hbf, hp, hbi, IngestTask.runFileChecked, hck, hii]
                rw [hval] at hrf
                simp at hrf
              · have hval : IngestTask.runFile cfg parseInfo destOf args fs (some reg) infile
                    = IngestTask.runFileTransport cfg destOf args fs infile fileInfo hl
                        ([Event.extractMeta infile, Event.checkRegistry infile] ++
                         [Event.warned infile]) := by
                  simp [IngestTask.runFile, hbf, hp, hbi, IngestTask.runFileChecked, hck, hii]
                exact htr _ (hval.symm.trans hrf)
            | false =>
              have hval : IngestTask.runFile cfg parseInfo destOf args fs (some reg) infile
                  = IngestTask.runFileTransport cfg destOf args fs infile fileInfo hl
                      [Event.extractMeta infile, Event.checkRegistry infile] := by
                simp [IngestTask.runFile, hbf, hp, hbi, IngestTask.runFileChecked, hck]
              exact htr _ (hval.symm.trans hrf)

theorem runFile_check_hit_skips (cfg : IngestConfig)
    (parseInfo : String → Except Err (Info × List Info))
    (destOf : Info → Except Err String) (args : Args) (fs : FS) (reg : Registry)
    (infile : String) (fileInfo : Info) (hl : List Info)
    (hp : parseInfo infile = .ok (fileInfo, hl))
    (hii : args.ignoreIngested = true)
    (hck : RegisterTask.check cfg.register reg.fileTable fileInfo = .ok true) :
    (IngestTask.runFile cfg parseInfo destOf args fs (some reg) infile).2.2 = .ok none ∨
    exceptErrored (IngestTask.runFile cfg parseInfo destOf args fs (some reg) infile).2.2
      = true := by
  by_cases hbf : IngestTask.isBadFile infile args.badFile = true
  · left
    simp [IngestTask.runFile, hbf]
  · cases hbi : IngestTask.isBadId fileInfo args.badId with
    | error e =>
      right
      simp [IngestTask.runFile, hbf, hp, hbi, exceptErrored]
    | ok bb =>
      cases bb with
      | true =>
        left
        simp [IngestTask.runFile, hbf, hp, hbi]
      | false =>
        left
        simp [IngestTask.runFile, hbf, hp, hbi, IngestTask.runFileChecked, hck, hii]

/-- Claim C6: with --ignore-ingested set, processing a file whose
unique-column tuple is already present in the registry inserts no
duplicate row: the file's loop iteration either leaves the registry handle
exactly as it was (the file is skipped by the check, skipped by transport,
or addRow's guard inserts nothing) or the iteration raises, aborting the
run before publish. -/
theorem c6_ignore_ingested_idempotent (cfg : IngestConfig)
    (parseInfo : String → Except Err (Info × List Info))
    (destOf : Info → Except Err String) (args : Args) (fs : FS) (reg : Registry)
    (log : List Event) (infile : String) (fileInfo : Info) (vals : List Value)
    (hii : args.ignoreIngested = true)
    (hdr : args.dryrun = false)
    (hp : parseInfo infile = .ok (fileInfo, [fileInfo]))
    (hne : cfg.register.unique.isEmpty = false)
    (hvals : coercedUniqueValues cfg.register fileInfo = .ok vals)
    (hpres : ∃ r ∈ reg.fileTable, uniqueRowEq cfg.register r vals = true) :
    regPart (IngestTask.loopBody cfg parseInfo destOf args (fs, some reg, log) infile)
      = some (some reg) ∨
    regPart (IngestTask.loopBody cfg parseInfo destOf args (fs, some reg, log) infile)
      = none := by
  rcases hrf : IngestTask.runFile cfg parseInfo destOf args fs (some reg) infile
    with ⟨fs', ev, res⟩
  cases res with
  | error e =>
    left
    simp [IngestTask.loopBody, hrf, regPart, Except.toOption]
  | ok oinfos =>
    cases oinfos with
    | none =>
      left
      simp [IngestTask.loopBody, hrf, regPart, Except.toOption]
    | some infos =>
      have hinfos : infos = [fileInfo] :=
        runFile_some_eq cfg parseInfo destOf args fs (some reg) infile fileInfo
          [fileInfo] fs' ev infos hp hrf
      subst hinfos
      by_cases hig : cfg.register.ignore = true
      · rcases addRow_present_no_insert cfg.register fileInfo reg vals hig hne hvals hpres
          with ⟨ev2, hok⟩ | ⟨e, herr⟩
        · left
          simp [IngestTask.loopBody, hrf, IngestTask.addRows, hok, hdr, regPart,
            Except.toOption]
        · right
          simp [IngestTask.loopBody, hrf, IngestTask.addRows, herr, hdr, regPart,
            Except.toOption]
      · have hig2 : cfg.register.ignore = false := by simpa using hig
        obtain ⟨r, hr, heq⟩ := hpres
        have hck := check_finds cfg.register fileInfo reg.fileTable vals r hig2 hne hvals hr heq
        rcases runFile_check_hit_skips cfg parseInfo destOf args fs reg infile fileInfo
            [fileInfo] hp hii hck with hnone | herrd
        · rw [hrf] at hnone
          simp at hnone
        · rw [hrf] at herrd
          simp [exceptErrored] at herrd

theorem selectDistinctAux_mem :
    ∀ (l seen : List Row) (x : Row),
      x ∈ selectDistinctAux seen l ↔ (x ∈ l ∧ x ∉ seen) := by
  intro l
  induction l with
  | nil => intro seen x; simp [selectDistinctAux]
  | cons r rs ih =>
    intro seen x
    by_cases hs : seen.contains r
    · have hrs : r ∈ seen := by simpa using hs
      simp only [selectDistinctAux, hs, if_true]
      rw [ih]
      constructor
      · rintro ⟨hx, hns⟩
        exact ⟨List.mem_cons_of_mem _ hx, hns⟩
      · rintro ⟨hx, hns⟩
        rcases List.mem_cons.mp hx with h1 | h2
        · exact absurd (h1 ▸ hrs) hns
        · exact ⟨h2, hns⟩
    · have hrs : r ∉ seen := by simpa using hs
      simp only [selectDistinctAux, hs, Bool.false_eq_true, if_false]
      constructor
      · intro hx
        rcases List.mem_cons.mp hx with h1 | h2
        · exact ⟨h1 ▸ List.mem_cons_self _ _, h1 ▸ hrs⟩
        · have := (ih (r :: seen) x).mp h2
          exact ⟨List.mem_cons_of_mem _ this.1,
            fun hmem => this.2 (List.mem_cons_of_mem _ hmem)⟩
      · rintro ⟨hx, hns⟩
        rcases List.mem_cons.mp hx with h1 | h2
        · exact h1 ▸ List.mem_cons_self _ _
        · by_cases hxr : x = r
          · exact hxr ▸ List.mem_cons_self _ _
          · exact List.mem_cons_of_mem _ ((ih (r :: seen) x).mpr
              ⟨h2, by simp [hxr, hns]⟩)

theorem selectDistinct_mem (l : List Row) (x : Row) :
    x ∈ selectDistinct l ↔ x ∈ l := by
  unfold selectDistinct
  rw [selectDistinctAux_mem]
  simp

theorem selectDistinctAux_nodup :
    ∀ (l seen : List Row), (selectDistinctAux seen l).Nodup := by
  intro l
  induction l with
  | nil => intro seen; simp [selectDistinctAux]
  | cons r rs ih =>
    intro seen
    by_cases hs : seen.contains r
    · simp only [selectDistinctAux, hs, if_true]
      exact ih seen
    · simp only [selectDistinctAux, hs, Bool.false_eq_true, if_false]
      refine List.nodup_cons.mpr ⟨?_, ih (r :: seen)⟩
      intro hmem
      have := (selectDistinctAux_mem rs (r :: seen) r).mp hmem
      exact this.2 (List.mem_cons_self _ _)

theorem selectDistinct_nodup (l : List Row) : (selectDistinct l).Nodup :=
  selectDistinctAux_nodup l []

theorem projectRow_lookup (row : Row) :
    ∀ (cols : List String) (c : String), c ∈ cols →
      (projectRow cols row).lookup c = some ((row.lookup c).getD (Value.text "")) := by
  intro cols
  induction cols with
  | nil => intro c hc; cases hc
  | cons c0 cs ih =>
    intro c hc
    by_cases he : c = c0
    · subst he
      simp [projectRow, List.lookup]
    · have hmem : c ∈ cs := by
        rcases List.mem_cons.mp hc with h1 | h2
        · exact absurd h1 he
        · exact h2
      have hne : (c == c0) = false := by simp [he]
      have := ih c hmem
      simpa [projectRow, List.lookup, hne] using this

theorem countP_eq_one_unique :
    ∀ (l : List Row) (p : Row → Bool) (a : Row),
      a ∈ l → p a = true → (∀ b ∈ l, p b = true → b = a) → l.Nodup →
      l.countP p = 1 := by
  intro l
  induction l with
  | nil => intro p a ha; cases ha
  | cons x xs ih =>
    intro p a ha hpa hu hnd
    rcases List.mem_cons.mp ha with h1 | h2
    · subst h1
      have hx0 : xs.countP p = 0 := by
        rw [List.countP_eq_zero]
        intro b hb hpb
        have hba := hu b (List.mem_cons_of_mem _ hb) hpb
        subst hba
        exact (List.nodup_cons.mp hnd).1 hb
      rw [List.countP_cons, hx0, hpa]
      rfl
    · have hpx : p x = false := by
        by_contra h
        have hx : p x = true := by simpa using h
        have hxa := hu x (List.mem_cons_self _ _) hx
        subst hxa
        exact (List.nodup_cons.mp hnd).1 h2
      have := ih p a h2 hpa (fun b hb hpb => hu b (List.mem_cons_of_mem _ hb) hpb)
        (List.nodup_cons.mp hnd).2
      rw [List.countP_cons, this, hpx]
      rfl

theorem rowsMatchOn_single (a b : Row) (c : String) :
    rowsMatchOn [c] a b = true ↔
      ∃ x, a.lookup c = some x ∧ b.lookup c = some x := by
  unfold rowsMatchOn
  rw [List.all_cons, List.all_nil, Bool.and_true]
  cases ha : a.lookup c with
  | none => simp
  | some x =>
    cases hb : b.lookup c with
    | none => simp
    | some y =>
      simp only []
      constructor
      · intro h
        exact ⟨x, rfl, by rw [eq_of_beq h]⟩
      · rintro ⟨z, hz1, hz2⟩
        cases hz1
        cases hz2
        exact beq_self_eq_true _

theorem insertVisitRows_ok (inter : List String) :
    ∀ (ts acc : List Row),
      (∀ t ∈ ts, ∀ r ∈ acc, rowsMatchOn inter r t = false) →
      List.Pairwise (fun x y => rowsMatchOn inter x y = false) ts →
      insertVisitRows inter acc ts = .ok (acc ++ ts) := by
  intro ts
  induction ts with
  | nil => intro acc _ _; simp [insertVisitRows]
  | cons t ts' ih =>
    intro acc hdisj hpw
    have hany : acc.any (fun r => rowsMatchOn inter r t) = false := by
      rw [List.any_eq_false]
      intro r hr
      simp [hdisj t (List.mem_cons_self _ _) r hr]
    simp only [insertVisitRows, hany, Bool.false_eq_true, if_false]
    have hpw2 := List.pairwise_cons.mp hpw
    have hrec := ih (acc ++ [t]) ?_ hpw2.2
    · rw [hrec]
      simp
    · intro t' ht' r hr
      rcases List.mem_append.mp hr with h1 | h2
      · exact hdisj t' (List.mem_cons_of_mem _ ht') r h1
      · have : r = t := by simpa using h2
        subst this
        exact hpw2.1 t' ht'

/-- Claim C7 amended: when every visit-key value in the file table carries
a single distinct combination of the visit columns, and the visit table
holds at most one row per key, the refresh completes and afterwards every
visit-key value present in the file table has exactly one row in the
visit table. -/
theorem c7_visit_refresh_unique_rows (cfg : RegisterConfig) (reg : Registry)
    (hsub : cfg.visit.all (fun c => (cfg.columns.map Prod.fst).contains c) = true)
    (hvcol : (cfg.columns.map Prod.fst).contains "visit" = true)
    (hvv : cfg.visit.contains "visit" = true)
    (hinter : visitInterCols cfg = ["visit"])
    (hone : ∀ r1 ∈ reg.fileTable, ∀ r2 ∈ reg.fileTable,
      r1.lookup "visit" = r2.lookup "visit" →
      projectRow cfg.visit r1 = projectRow cfg.visit r2)
    (hwf : ∀ r ∈ reg.fileTable, (r.lookup "visit").isSome = true)
    (hnd : (reg.visitTable.map (fun v => v.lookup "visit")).Nodup) :
    ∃ reg2 : Registry,
      RegisterTask.addVisits cfg (some reg) false
        = .ok (some reg2, [Event.dbInsertVisits cfg.table]) ∧
      (reg.fileTable.all (fun r =>
        reg2.visitTable.countP (fun v => v.lookup "visit" == r.lookup "visit")
          == 1)) = true := by
  have hvmem : "visit" ∈ cfg.visit := by simpa using hvv
  have hproj : ∀ r ∈ reg.fileTable,
      (projectRow cfg.visit r).lookup "visit" = r.lookup "visit" := by
    intro r hr
    obtain ⟨w, hw⟩ := Option.isSome_iff_exists.mp (hwf r hr)
    rw [projectRow_lookup r cfg.visit "visit" hvmem, hw]
    rfl
  have h1 : cfg.visit.any (fun c => !(cfg.columns.map Prod.fst).contains c) = false := by
    rw [List.any_eq_false]
    intro c hc
    have h := List.all_eq_true.mp hsub c hc
    simp only [h, Bool.not_true, Bool.false_eq_true]
    exact not_false
  have h2 : (!(cfg.columns.map Prod.fst).contains "visit"
      || !cfg.visit.contains "visit") = false := by
    rw [hvcol, hvv]
    rfl
  have hcand : ∀ t ∈ (selectDistinct (reg.fileTable.map (projectRow cfg.visit))).filter
      (fun t => !reg.visitTable.any (fun r2 => r2.lookup "visit" == t.lookup "visit")),
      ∃ r ∈ reg.fileTable, t = projectRow cfg.visit r := by
    intro t ht
    have ht2 := List.mem_of_mem_filter ht
    have ht3 := (selectDistinct_mem _ t).mp ht2
    obtain ⟨r, hr, hrt⟩ := List.mem_map.mp ht3
    exact ⟨r, hr, hrt.symm⟩
  have hcandkey : ∀ t ∈ (selectDistinct (reg.fileTable.map (projectRow cfg.visit))).filter
      (fun t => !reg.visitTable.any (fun r2 => r2.lookup "visit" == t.lookup "visit")),
      ∀ v ∈ reg.visitTable, (v.lookup "visit" == t.lookup "visit") = false := by
    intro t ht v hv
    have hpred := (List.mem_filter.mp ht).2
    have hany : reg.visitTable.any
        (fun r2 => r2.lookup "visit" == t.lookup "visit") = false := by
      simpa using hpred
    exact List.any_eq_false.mp hany v hv |> fun h => by simpa using h
  have hdisj : ∀ t ∈ (selectDistinct (reg.fileTable.map (projectRow cfg.visit))).filter
      (fun t => !reg.visitTable.any (fun r2 => r2.lookup "visit" == t.lookup "visit")),
      ∀ v ∈ reg.visitTable, rowsMatchOn ["visit"] v t = false := by
    intro t ht v hv
    by_contra hcon
    have hm : rowsMatchOn ["visit"] v t = true := by simpa using hcon
    obtain ⟨x, hx1, hx2⟩ := (rowsMatchOn_single v t "visit").mp hm
    have := hcandkey t ht v hv
    rw [hx1, hx2] at this
    simp at this
  have hcnodup : ((selectDistinct (reg.fileTable.map (projectRow cfg.visit))).filter
      (fun t => !reg.visitTable.any
        (fun r2 => r2.lookup "visit" == t.lookup "visit"))).Nodup :=
    (selectDistinct_nodup _).filter _
  have hpw : List.Pairwise (fun x y => rowsMatchOn ["visit"] x y = false)
      ((selectDistinct (reg.fileTable.map (projectRow cfg.visit))).filter
        (fun t => !reg.visitTable.any
          (fun r2 => r2.lookup "visit" == t.lookup "visit"))) := by
    refine List.Pairwise.imp_of_mem ?_ hcnodup
    intro a b ha hb hne
    by_contra hcon
    have hm : rowsMatchOn ["visit"] a b = true := by simpa using hcon
    obtain ⟨x, hx1, hx2⟩ := (rowsMatchOn_single a b "visit").mp hm
    obtain ⟨ra, hra, hae⟩ := hcand a ha
    obtain ⟨rb, hrb, hbe⟩ := hcand b hb
    have hka : ra.lookup "visit" = some x := by
      rw [← hproj ra hra, ← hae]
      exact hx1
    have hkb : rb.lookup "visit" = some x := by
      rw [← hproj rb hrb, ← hbe]
      exact hx2
    have := hone ra hra rb hrb (hka.trans hkb.symm)
    rw [hae, hbe, this] at hne
    exact hne rfl
  have hins := insertVisitRows_ok ["visit"]
    ((selectDistinct (reg.fileTable.map (projectRow cfg.visit))).filter
      (fun t => !reg.visitTable.any (fun r2 => r2.lookup "visit" == t.lookup "visit")))
    reg.visitTable (fun t ht r hr => hdisj t ht r hr) hpw
  refine ⟨{ reg with visitTable := reg.visitTable ++
    ((selectDistinct (reg.fileTable.map (projectRow cfg.visit))).filter
      (fun t => !reg.visitTable.any
        (fun r2 => r2.lookup "visit" == t.lookup "visit"))) }, ?_, ?_⟩
  · unfold RegisterTask.addVisits
    simp only [Bool.false_eq_true, if_false, h1, h2, hinter, hins]
  · rw [List.all_eq_true]
    intro r hr
    rw [beq_iff_eq]
    obtain ⟨w, hw⟩ := Option.isSome_iff_exists.mp (hwf r hr)
    rw [List.countP_append]
    by_cases hcase : ∃ v0 ∈ reg.visitTable, v0.lookup "visit" = r.lookup "visit"
    · obtain ⟨v0, hv0, hkey⟩ := hcase
      have hc1 : reg.visitTable.countP
          (fun v => v.lookup "visit" == r.lookup "visit") = 1 := by
        refine countP_eq_one_unique _ _ v0 hv0 (by rw [hkey]; exact beq_self_eq_true _)
          ?_ hnd.of_map
        intro b hb hpb
        have hbk : b.lookup "visit" = r.lookup "visit" := eq_of_beq hpb
        exact List.inj_on_of_nodup_map hnd hb hv0 (hbk.trans hkey.symm)
      have hc2 : ((selectDistinct (reg.fileTable.map (projectRow cfg.visit))).filter
          (fun t => !reg.visitTable.any
            (fun r2 => r2.lookup "visit" == t.lookup "visit"))).countP
          (fun v => v.lookup "visit" == r.lookup "visit") = 0 := by
        rw [List.countP_eq_zero]
        intro t ht hpt
        have htk : t.lookup "visit" = r.lookup "visit" := eq_of_beq hpt
        have := hcandkey t ht v0 hv0
        rw [htk, hkey] at this
        simp at this
      rw [hc1, hc2]
    · have hc1 : reg.visitTable.countP
          (fun v => v.lookup "visit" == r.lookup "visit") = 0 := by
        rw [List.countP_eq_zero]
        intro v hv hpv
        exact hcase ⟨v, hv, eq_of_beq hpv⟩
      have hamem : projectRow cfg.visit r ∈
          (selectDistinct (reg.fileTable.map (projectRow cfg.visit))).filter
            (fun t => !reg.visitTable.any
              (fun r2 => r2.lookup "visit" == t.lookup "visit")) := by
        rw [List.mem_filter]
        refine ⟨(selectDistinct_mem _ _).mpr (List.mem_map_of_mem _ hr), ?_⟩
        have hany : reg.visitTable.any (fun r2 =>
            r2.lookup "visit" == (projectRow cfg.visit r).lookup "visit") = false := by
          rw [List.any_eq_false]
          intro v hv hcon
          have : v.lookup "visit" = (projectRow cfg.visit r).lookup "visit" :=
            eq_of_beq (by simpa using hcon)
          rw [hproj r hr] at this
          exact hcase ⟨v, hv, this⟩
        simp [hany]
      have hc2 : ((selectDistinct (reg.fileTable.map (projectRow cfg.visit))).filter
          (fun t => !reg.visitTable.any
            (fun r2 => r2.lookup "visit" == t.lookup "visit"))).countP
          (fun v => v.lookup "visit" == r.lookup "visit") = 1 := by
        refine countP_eq_one_unique _ _ (projectRow cfg.visit r) hamem
          (by rw [hproj r hr]; exact beq_self_eq_true _) ?_ hcnodup
        intro b hb hpb
        obtain ⟨rb, hrb, hbe⟩ := hcand b hb
        have hbk : b.lookup "visit" = r.lookup "visit" := eq_of_beq hpb
        have hkb : rb.lookup "visit" = r.lookup "visit" := by
          rw [← hproj rb hrb, ← hbe]
          exact hbk
        have := hone rb hrb r hr hkb
        rw [hbe, this]
      rw [hc1, hc2]

/-- Claim C6 witness: the second-run iteration over a file whose unique
tuple (visit 1, ccd 1) is already registered leaves the registry handle
unchanged (or would abort the run). -/
theorem c6_ignore_ingested_idempotent_witness :
    regPart (IngestTask.loopBody cfgIngSmall parseX destFixed argsReal
      (fsRun, some regW, []) "f1") = some (some regW) ∨
    regPart (IngestTask.loopBody cfgIngSmall parseX destFixed argsReal
      (fsRun, some regW, []) "f1") = none :=
  c6_ignore_ingested_idempotent cfgIngSmall parseX destFixed argsReal fsRun regW []
    "f1" infoX [Value.int 1, Value.int 1] rfl rfl rfl rfl rfl (by decide)

/-- Claim C7 witness: the amended refresh property at a concrete registry
whose single visit key is already present in the visit table. -/
theorem c7_visit_refresh_unique_rows_witness :
    (regW.fileTable.all (fun r =>
      regW.visitTable.countP (fun v => v.lookup "visit" == r.lookup "visit") == 1)) = true ∧
    RegisterTask.addVisits cfgSmall (some regW) false
      = .ok (some regW, [Event.dbInsertVisits "raw"]) := by
  obtain ⟨reg2, h1, h2⟩ := c7_visit_refresh_unique_rows cfgSmall regW (by decide) (by decide)
    (by decide) rfl (by decide) (by decide) (by decide)
  have hval : RegisterTask.addVisits cfgSmall (some regW) false
      = .ok (some regW, [Event.dbInsertVisits "raw"]) := rfl
  have he : reg2 = regW := by
    have h3 := hval.symm.trans h1
    simp at h3
    exact h3.1.symm
  subst he
  exact ⟨h2, rfl⟩

theorem ingest_dryrun (clobber allowError : Bool) (mode : Mode) (fs : FS)
    (inf outf : String) (hm : mode ≠ Mode.skip) :
    IngestTask.ingest clobber allowError mode true fs inf outf
      = (fs, [Event.wouldTransport mode.str inf outf], .ok true) := by
  simp [IngestTask.ingest, hm]

theorem addRow_dryrun_shape (cfg : RegisterConfig) (ro : Option Registry) (info : Info)
    (r : Option Registry × List Event)
    (h : RegisterTask.addRow cfg ro true info = .ok r) :
    r = (ro, [Event.wouldInsert cfg.table]) := by
  unfold RegisterTask.addRow at h
  cases hcr : coercedRowValues cfg info with
  | error e => rw [hcr] at h; cases h
  | ok vals =>
    rw [hcr] at h
    cases hgv : (if cfg.ignore then rawUniqueValues cfg info else .ok [] :
        Except Err (List Value)) with
    | error e => rw [hgv] at h; cases h
    | ok gv =>
      rw [hgv] at h
      simp only [if_true] at h
      cases h
      rfl

theorem addRows_dryrun_shape (cfg : RegisterConfig) (c : Bool) :
    ∀ (infos : List Info) (ro : Option Registry) (r : Option Registry × List Event),
      IngestTask.addRows cfg ro true c infos = .ok r →
      r.1 = ro ∧ r.2.all (fun e => !e.isMutation && !e.isCheck) = true := by
  intro infos
  induction infos with
  | nil =>
    intro ro r h
    simp only [IngestTask.addRows] at h
    cases h
    exact ⟨rfl, rfl⟩
  | cons info rest ih =>
    intro ro r h
    cases har : RegisterTask.addRow cfg ro true info with
    | error e =>
      have hval : IngestTask.addRows cfg ro true c (info :: rest) = .error e := by
        simp only [IngestTask.addRows, har]
      rw [hval] at h
      cases h
    | ok pr =>
      rcases pr with ⟨ro2, ev⟩
      have hpr := addRow_dryrun_shape cfg ro info (ro2, ev) har
      injection hpr with h1 h2
      subst h1
      subst h2
      cases hrest : IngestTask.addRows cfg ro2 true c rest with
      | error e =>
        have hval : IngestTask.addRows cfg ro2 true c (info :: rest) = .error e := by
          simp only [IngestTask.addRows, har, hrest]
        rw [hval] at h
        cases h
      | ok r2 =>
        rcases r2 with ⟨ro3, ev2⟩
        have hval : IngestTask.addRows cfg ro2 true c (info :: rest)
            = .ok (ro3, [Event.wouldInsert cfg.table] ++ ev2) := by
          simp only [IngestTask.addRows, har, hrest]
        rw [hval] at h
        cases h
        have hih := ih ro2 (ro3, ev2) hrest
        refine ⟨hih.1, ?_⟩
        simp only [List.all_append]
        rw [hih.2]
        rfl

theorem runFile_dryrun_shape (cfg : IngestConfig)
    (parseInfo : String → Except Err (Info × List Info))
    (destOf : Info → Except Err String) (args : Args) (fs : FS) (infile : String)
    (hdry : args.dryrun = true) :
    ∃ ev res, IngestTask.runFile cfg parseInfo destOf args fs none infile = (fs, ev, res) ∧
      ev.all (fun e => !e.isMutation && !e.isCheck) = true ∧
      (IngestTask.isBadFile infile args.badFile = false → Event.extractMeta infile ∈ ev) := by
  by_cases hbf : IngestTask.isBadFile infile args.badFile = true
  · refine ⟨[Event.warned infile], .ok none, by simp [IngestTask.runFile, hbf], rfl, ?_⟩
    intro h
    rw [h] at hbf
    cases hbf
  · have hbf2 : IngestTask.isBadFile infile args.badFile = false := by simpa using hbf
    cases hp : parseInfo infile with
    | error e =>
      by_cases hae : cfg.allowError = true
      · exact ⟨[Event.extractMeta infile, Event.warned infile], .ok none,
          by simp [IngestTask.runFile, hbf2, hp, hae], rfl,
          fun _ => List.mem_cons_self _ _⟩
      · have hae2 : cfg.allowError = false := by simpa using hae
        exact ⟨[Event.extractMeta infile], .error e,
          by simp [IngestTask.runFile, hbf2, hp, hae2], rfl,
          fun _ => List.mem_cons_self _ _⟩
    | ok pr =>
      rcases pr with ⟨fileInfo, hl⟩
      cases hbi : IngestTask.isBadId fileInfo args.badId with
      | error e =>
        exact ⟨[Event.extractMeta infile], .error e,
          by simp [IngestTask.runFile, hbf2, hp, hbi], rfl,
          fun _ => List.mem_cons_self _ _⟩
      | ok bb =>
        cases bb with
        | true =>
          exact ⟨[Event.extractMeta infile, Event.warned infile], .ok none,
            by simp [IngestTask.runFile, hbf2, hp, hbi], rfl,
            fun _ => List.mem_cons_self _ _⟩
        | false =>
          cases hdo : destOf fileInfo with
          | error e =>
            exact ⟨[Event.extractMeta infile], .error e,
              by simp [IngestTask.runFile, hbf2, hp, hbi, IngestTask.runFileChecked,
                IngestTask.runFileTransport, hdo], rfl,
              fun _ => List.mem_cons_self _ _⟩
          | ok outfile =>
            by_cases hsk : args.mode = Mode.skip
            · refine ⟨[Event.extractMeta infile] ++ [], .ok (some hl), ?_,
                by simp [Event.isMutation, Event.isCheck],
                fun _ => List.mem_cons_self _ _⟩
              have hing : IngestTask.ingest cfg.clobber cfg.allowError args.mode
                  args.dryrun fs infile outfile = (fs, [], .ok true) := by
                simp [IngestTask.ingest, hsk]
              simp [IngestTask.runFile, hbf2, hp, hbi, IngestTask.runFileChecked,
                IngestTask.runFileTransport, hdo, hing]
            · refine ⟨[Event.extractMeta infile] ++
                [Event.wouldTransport args.mode.str infile outfile], .ok (some hl), ?_,
                by simp [Event.isMutation, Event.isCheck],
                fun _ => List.mem_cons_self _ _⟩
              have hing : IngestTask.ingest cfg.clobber cfg.allowError args.mode
                  args.dryrun fs infile outfile
                  = (fs, [Event.wouldTransport args.mode.str infile outfile], .ok true) := by
                rw [hdry]
                exact ingest_dryrun _ _ _ _ _ _ hsk
              simp [IngestTask.runFile, hbf2, hp, hbi, IngestTask.runFileChecked,
                IngestTask.runFileTransport, hdo, hing]

theorem loopBody_dryrun_shape (cfg : IngestConfig)
    (parseInfo : String → Except Err (Info × List Info))
    (destOf : Info → Except Err String) (args : Args) (fs : FS) (log : List Event)
    (infile : String) (hdry : args.dryrun = true) :
    (∃ extra, IngestTask.loopBody cfg parseInfo destOf args (fs, none, log) infile
        = .ok (fs, none, log ++ extra) ∧
      extra.all (fun e => !e.isMutation && !e.isCheck) = true ∧
      (IngestTask.isBadFile infile args.badFile = false →
        Event.extractMeta infile ∈ extra)) ∨
    (∃ e, IngestTask.loopBody cfg parseInfo destOf args (fs, none, log) infile
        = .error e) := by
  obtain ⟨ev, res, hrf, hall, hex⟩ :=
    runFile_dryrun_shape cfg parseInfo destOf args fs infile hdry
  cases res with
  | error e =>
    left
    refine ⟨ev ++ [Event.warned infile], ?_, ?_, ?_⟩
    · simp [IngestTask.loopBody, hrf]
    · simp only [List.all_append, hall]
      rfl
    · intro h
      exact List.mem_append_left _ (hex h)
  | ok oinfos =>
    cases oinfos with
    | none =>
      left
      exact ⟨ev, by simp [IngestTask.loopBody, hrf], hall, hex⟩
    | some infos =>
      cases haddr : IngestTask.addRows cfg.register none true args.create infos with
      | error e =>
        right
        refine ⟨e, ?_⟩
        simp [IngestTask.loopBody, hrf, hdry, haddr]
      | ok r2 =>
        rcases r2 with ⟨ro3, ev2⟩
        have hsh := addRows_dryrun_shape cfg.register args.create infos none (ro3, ev2) haddr
        have hro3 : ro3 = none := hsh.1
        subst hro3
        left
        refine ⟨ev ++ ev2, ?_, ?_, ?_⟩
        · simp [IngestTask.loopBody, hrf, hdry, haddr]
        · simp only [List.all_append, hall]
          exact hsh.2
        · intro h
          exact List.mem_append_left _ (hex h)

theorem runLoop_dryrun_shape (cfg : IngestConfig)
    (parseInfo : String → Except Err (Info × List Info))
    (destOf : Info → Except Err String) (args : Args) (hdry : args.dryrun = true) :
    ∀ (files : List String) (fs : FS) (log : List Event)
      (st' : FS × Option Registry × List Event),
      IngestTask.runLoop cfg parseInfo destOf args files (fs, none, log) = .ok st' →
      st'.1 = fs ∧ st'.2.1 = none ∧
      (∃ extra, st'.2.2 = log ++ extra ∧
        extra.all (fun e => !e.isMutation && !e.isCheck) = true) ∧
      (∀ f ∈ files, IngestTask.isBadFile f args.badFile = false →
        Event.extractMeta f ∈ st'.2.2) := by
  intro files
  induction files with
  | nil =>
    intro fs log st' h
    simp only [IngestTask.runLoop] at h
    cases h
    refine ⟨rfl, rfl, ⟨[], by simp, rfl⟩, ?_⟩
    intro f hf
    cases hf
  | cons f rest ih =>
    intro fs log st' h
    rcases loopBody_dryrun_shape cfg parseInfo destOf args fs log f hdry with
      ⟨extra, hlb, hallx, hexx⟩ | ⟨e, hlb⟩
    · have hstep : IngestTask.runLoop cfg parseInfo destOf args (f :: rest) (fs, none, log)
          = IngestTask.runLoop cfg parseInfo destOf args rest (fs, none, log ++ extra) := by
        simp only [IngestTask.runLoop, hlb]
      rw [hstep] at h
      obtain ⟨h1, h2, ⟨extra2, hlog, hall2⟩, hextr⟩ := ih fs (log ++ extra) st' h
      refine ⟨h1, h2, ⟨extra ++ extra2, by rw [hlog, List.append_assoc], ?_⟩, ?_⟩
      · simp only [List.all_append, hallx, hall2]
        rfl
      · intro g hg hgbad
        rcases List.mem_cons.mp hg with hg1 | hg2
        · subst hg1
          rw [hlog]
          exact List.mem_append_left _ (List.mem_append_right _ (hexx hgbad))
        · exact hextr g hg2 hgbad
    · have hstep : IngestTask.runLoop cfg parseInfo destOf args (f :: rest) (fs, none, log)
          = .error e := by
        simp only [IngestTask.runLoop, hlb]
      rw [hstep] at h
      cases h

/-- Claim C5 counterexample: the same batch over a registry that already
contains the file's tuple performs the already-ingested existence check in
a real run but not in a dry run — in dry-run mode no registry handle is
opened (the context yields None), so the check is skipped rather than
performed. -/
theorem c5_counterexample :
    ((IngestTask.run cfgIngSmall parseX destFixed globId argsReal fsRun
        (some regW)).2.toOption.map (fun st => st.2.2.any Event.isCheck)) = some true ∧
    ((IngestTask.run cfgIngSmall parseX destFixed globId argsDry fsRun
        (some regW)).2.toOption.map (fun st => st.2.2.any Event.isCheck)) = some false :=
  ⟨rfl, rfl⟩

/-- Claim C5 amended: a dry run opens no registry (no temporary-file I/O,
handle None), performs no filesystem or database mutation and leaves the
filesystem exactly as it was; metadata extraction is still performed for
every file not excluded as bad; every suppressed transport and insert is
reported as a would-execute message; but the already-ingested existence
check is skipped, because no registry handle exists. -/
theorem c5_dryrun_no_mutation (cfg : IngestConfig)
    (parseInfo : String → Except Err (Info × List Info))
    (destOf : Info → Except Err String) (globFn : String → List String)
    (args : Args) (fs0 : FS) (live : Option Registry)
    (hdry : args.dryrun = true) (hmode : args.mode ≠ Mode.skip) :
    (IngestTask.run cfg parseInfo destOf globFn args fs0 live).1 = [] ∧
    (fsPart (IngestTask.run cfg parseInfo destOf globFn args fs0 live).2 = some fs0 ∨
      fsPart (IngestTask.run cfg parseInfo destOf globFn args fs0 live).2 = none) ∧
    (regPart (IngestTask.run cfg parseInfo destOf globFn args fs0 live).2 = some none ∨
      regPart (IngestTask.run cfg parseInfo destOf globFn args fs0 live).2 = none) ∧
    (((logPart (IngestTask.run cfg parseInfo destOf globFn args fs0 live).2).getD []).all
      (fun e => !e.isMutation && !e.isCheck)) = true ∧
    (logPart (IngestTask.run cfg parseInfo destOf globFn args fs0 live).2 = none ∨
      ((IngestTask.expandFiles globFn args.files).all (fun f =>
        IngestTask.isBadFile f args.badFile ||
        ((logPart (IngestTask.run cfg parseInfo destOf globFn args fs0 live).2).getD
          []).contains (Event.extractMeta f))) = true) ∧
    (∀ (fs1 : FS) (inf outf : String),
      IngestTask.ingest cfg.clobber cfg.allowError args.mode true fs1 inf outf
        = (fs1, [Event.wouldTransport args.mode.str inf outf], .ok true)) ∧
    (∀ (ro : Option Registry) (info : Info) (r : Option Registry × List Event),
      RegisterTask.addRow cfg.register ro true info = .ok r →
      r = (ro, [Event.wouldInsert cfg.register.table])) := by
  have hopen : RegisterTask.openRegistry cfg.register args.dryrun live args.create
      = ([], .ok none) := by
    rw [hdry]
    rfl
  cases hrl : IngestTask.runLoop cfg parseInfo destOf args
      (IngestTask.expandFiles globFn args.files) (fs0, none, []) with
  | error e =>
    have hrun : IngestTask.run cfg parseInfo destOf globFn args fs0 live
        = ([], .error e) := by
      simp only [IngestTask.run, hopen, hrl]
    rw [hrun]
    exact ⟨rfl, Or.inr rfl, Or.inr rfl, rfl, Or.inl rfl,
      fun fs1 inf outf => ingest_dryrun _ _ _ _ _ _ hmode,
      fun ro info r h => addRow_dryrun_shape _ _ _ _ h⟩
  | ok st =>
    rcases st with ⟨fsR, roR, logR⟩
    obtain ⟨h1, h2, ⟨extra, hlog, hall⟩, hextr⟩ :=
      runLoop_dryrun_shape cfg parseInfo destOf args hdry _ fs0 [] (fsR, roR, logR) hrl
    have h1' : fsR = fs0 := h1
    have h2' : roR = none := h2
    subst h1'
    subst h2'
    have haddv : RegisterTask.addVisits cfg.register none args.dryrun
        = .ok (none, [Event.wouldVisits cfg.register.table]) := by
      rw [hdry]
      rfl
    have hrun : IngestTask.run cfg parseInfo destOf globFn args fsR live
        = ([], .ok (fsR, none, logR ++ [Event.wouldVisits cfg.register.table])) := by
      simp only [IngestTask.run, hopen, hrl, haddv]
    rw [hrun]
    refine ⟨rfl, Or.inl rfl, Or.inl rfl, ?_, Or.inr ?_, 
      fun fs1 inf outf => ingest_dryrun _ _ _ _ _ _ hmode,
      fun ro info r h => addRow_dryrun_shape _ _ _ _ h⟩
    · have hlogR : logR = extra := hlog
      simp only [logPart, Except.toOption, Option.map, Option.getD, List.all_append,
        hlogR, hall]
      rfl
    · rw [List.all_eq_true]
      intro f hf
      by_cases hbad : IngestTask.isBadFile f args.badFile = true
      · simp [hbad]
      · have hbad2 : IngestTask.isBadFile f args.badFile = false := by simpa using hbad
        have hm : Event.extractMeta f ∈ logR ++ [Event.wouldVisits cfg.register.table] :=
          List.mem_append_left _ (hextr f hf hbad2)
        simp only [logPart, Except.toOption, Option.map, Option.getD]
        simp [hm]

/-- Claim C5 witness: the amended dry-run property at the concrete batch:
no registry I/O events, filesystem unchanged, and no mutation or
registry-check events in the log. -/
theorem c5_dryrun_witness :
    (IngestTask.run cfgIngSmall parseX destFixed globId argsDry fsRun (some regW)).1 = [] ∧
    (fsPart (IngestTask.run cfgIngSmall parseX destFixed globId argsDry fsRun
      (some regW)).2 = some fsRun ∨
     fsPart (IngestTask.run cfgIngSmall parseX destFixed globId argsDry fsRun
      (some regW)).2 = none) ∧
    (((logPart (IngestTask.run cfgIngSmall parseX destFixed globId argsDry fsRun
      (some regW)).2).getD []).all (fun e => !e.isMutation && !e.isCheck)) = true :=
  ⟨(c5_dryrun_no_mutation cfgIngSmall parseX destFixed globId argsDry fsRun (some regW)
      rfl (by decide)).1,
   (c5_dryrun_no_mutation cfgIngSmall parseX destFixed globId argsDry fsRun (some regW)
      rfl (by decide)).2.1,
   (c5_dryrun_no_mutation cfgIngSmall parseX destFixed globId argsDry fsRun (some regW)
      rfl (by decide)).2.2.2.1⟩
